import Mathlib

set_option maxRecDepth 40000

attribute [local semireducible] List.mergeSort List.merge Rat.add Rat.mul
  Rat.inv Rat.sub Rat.ofScientific

/-!
Verification of the benchforge benchmark harness specification against a
shallow embedding of its TypeScript source.

Conventions of the embedding:

* JavaScript numbers are modelled as exact rationals (`ℚ`).  The IEEE special
  values that matter for the claims (division by zero producing ±Infinity or
  NaN, and NaN-absorbing comparisons) are modelled by the four-constructor
  type `JNum` below; functions whose source can produce special values are
  defined over `JNum`, functions that only ever see finite measurement data
  are defined over `ℚ`.
* `Math.random()`-driven resampling is modelled by passing the drawn indices
  explicitly as arguments.
* Strings are Lean `String`s; the `(\w+)=([^\s,]+)` field regex of the GC
  trace parser is modelled by an equivalent left-to-right scanner.
-/

namespace Benchforge

/-! ### JavaScript number semantics (`JNum`)

A JavaScript `number` is either finite (idealised here as an exact rational),
`Infinity`, `-Infinity`, or `NaN`.  Negative zero is not distinguished; no
code path relevant to the claims produces `-0`. -/

inductive JNum where
  | fin (q : ℚ)
  | inf
  | ninf
  | nan
deriving DecidableEq, Repr

namespace JNum

/-- IEEE `<`: comparisons involving NaN are false. -/
def jlt (a b : JNum) : Bool :=
  match a, b with
  | nan, _ => false
  | _, nan => false
  | fin a, fin b => a < b
  | ninf, ninf => false
  | ninf, _ => true
  | _, ninf => false
  | inf, _ => false
  | _, inf => true

/-- IEEE `≤`: comparisons involving NaN are false. -/
def jle (a b : JNum) : Bool :=
  match a, b with
  | nan, _ => false
  | _, nan => false
  | fin a, fin b => a ≤ b
  | ninf, _ => true
  | _, ninf => false
  | _, inf => true
  | inf, _ => false

/-- IEEE addition on the modelled values. -/
def jadd (a b : JNum) : JNum :=
  match a, b with
  | nan, _ => nan
  | _, nan => nan
  | fin a, fin b => fin (a + b)
  | inf, ninf => nan
  | ninf, inf => nan
  | inf, _ => inf
  | _, inf => inf
  | ninf, _ => ninf
  | _, ninf => ninf

/-- IEEE subtraction on the modelled values. -/
def jsub (a b : JNum) : JNum :=
  match a, b with
  | nan, _ => nan
  | _, nan => nan
  | fin a, fin b => fin (a - b)
  | inf, inf => nan
  | ninf, ninf => nan
  | inf, _ => inf
  | _, inf => ninf
  | ninf, _ => ninf
  | _, ninf => inf

/-- IEEE division on the modelled values (positive zero only). -/
def jdiv (a b : JNum) : JNum :=
  match a, b with
  | nan, _ => nan
  | _, nan => nan
  | fin a, fin b =>
    if b = 0 then (if a = 0 then nan else if a > 0 then inf else ninf)
    else fin (a / b)
  | inf, inf => nan
  | inf, ninf => nan
  | ninf, inf => nan
  | ninf, ninf => nan
  | inf, fin b => if b < 0 then ninf else inf
  | ninf, fin b => if b < 0 then inf else ninf
  | fin _, inf => fin 0
  | fin _, ninf => fin 0

/-- IEEE multiplication on the modelled values. -/
def jmul (a b : JNum) : JNum :=
  match a, b with
  | nan, _ => nan
  | _, nan => nan
  | fin a, fin b => fin (a * b)
  | inf, fin b => if b = 0 then nan else if b > 0 then inf else ninf
  | fin b, inf => if b = 0 then nan else if b > 0 then inf else ninf
  | ninf, fin b => if b = 0 then nan else if b > 0 then ninf else inf
  | fin b, ninf => if b = 0 then nan else if b > 0 then ninf else inf
  | inf, inf => inf
  | ninf, ninf => inf
  | inf, ninf => ninf
  | ninf, inf => ninf

/-- `Math.min` on two values: NaN-absorbing. -/
def jmin (a b : JNum) : JNum :=
  match a, b with
  | nan, _ => nan
  | _, nan => nan
  | _, _ => if jle a b then a else b

/-- `Math.max` on two values: NaN-absorbing. -/
def jmax (a b : JNum) : JNum :=
  match a, b with
  | nan, _ => nan
  | _, nan => nan
  | _, _ => if jle a b then b else a

/-- Total ordering used to model `sort((a, b) => a - b)`.  It agrees with the
JavaScript numeric sort on arrays without NaN (NaN-containing arrays have
implementation-defined sort order; no claim depends on them). -/
def sortLe (a b : JNum) : Bool :=
  match a, b with
  | ninf, _ => true
  | _, ninf => false
  | _, nan => true
  | nan, _ => false
  | fin a, fin b => a ≤ b
  | _, inf => true
  | inf, _ => false

/-- `Number.isNaN`. -/
def isNaN : JNum → Bool
  | nan => true
  | _ => false

/-- JavaScript truthiness of a number: `0` and `NaN` are falsy. -/
def truthy : JNum → Bool
  | fin q => q ≠ 0
  | nan => false
  | _ => true

/-- Extract the finite value, mapping the special values to `0`.  Used only
to store the clamped unconverged confidence (`Math.max(0, Math.min(100, …))`,
which is finite or NaN) in the rational `confidence` field: the source keeps
NaN there, `ℚ` cannot.  The substitution is control-flow exact — on the
unconverged branch `converged` is `false` and every threshold compared
against the confidence is `max(target, 80) ≥ 80 > 0`, so NaN and `0` fail
those comparisons alike; only the displayed number differs. -/
def orZero : JNum → ℚ
  | fin q => q
  | _ => 0

/-- How JavaScript prints a number into a template string (`Infinity`,
`-Infinity`, `NaN`; finite values print here as exact rationals rather than
through `toFixed`). -/
def display : JNum → String
  | fin q => toString q
  | inf => "Infinity"
  | ninf => "-Infinity"
  | nan => "NaN"

end JNum

/-! ### Statistics primitives (`src/StatisticalUtils.ts`)

These operate on finite measurement samples and are defined over `ℚ`.
`[...values].sort((a, b) => a - b)` is modelled by `mergeSort` with `≤`. -/

/-- Ascending numeric sort of a rational array. -/
def sortQ (values : List ℚ) : List ℚ :=
  values.mergeSort (fun a b => decide (a ≤ b))

/-- `percentile(values, p)`: value at percentile `p` (0-1), nearest-rank.
`sorted[Math.max(0, index)]` with `index = Math.ceil(sorted.length * p) - 1`.
The `getD` default stands for the out-of-range `undefined`, which no claim
exercises (all claims keep `p ∈ [0, 1]` and the list non-empty). -/
def percentile (values : List ℚ) (p : ℚ) : ℚ :=
  let sorted := sortQ values
  let index : ℤ := ⌈(sorted.length : ℚ) * p⌉ - 1
  sorted.getD (max 0 index).toNat 0

/-- `average(values)`: sum divided by length (for the empty array JavaScript
yields NaN; claims only use non-empty input). -/
def average (values : List ℚ) : ℚ :=
  (values.foldl (· + ·) 0) / (values.length : ℚ)

/-- `standardDeviation(samples)`: Bessel-corrected standard deviation; `0` for
`n ≤ 1`.  `Math.sqrt` forces the result into `ℝ`; the radicand is computed
exactly in `ℚ`. -/
noncomputable def standardDeviation (samples : List ℚ) : ℝ :=
  if samples.length ≤ 1 then 0
  else
    let mean := average samples
    let variance :=
      (samples.foldl (fun sum x => sum + (x - mean) ^ 2) 0) /
        ((samples.length : ℚ) - 1)
    Real.sqrt (variance : ℝ)

/-- `coefficientOfVariation(samples)`: stddev / mean, `0` if the mean is 0. -/
noncomputable def coefficientOfVariation (samples : List ℚ) : ℝ :=
  if average samples = 0 then 0
  else standardDeviation samples / ((average samples : ℚ) : ℝ)

/-- `medianAbsoluteDeviation(samples)`: median of `|x - median(samples)|`. -/
def medianAbsoluteDeviation (samples : List ℚ) : ℚ :=
  let median := percentile samples (1/2)
  let deviations := samples.map (fun x => |x - median|)
  percentile deviations (1/2)

/-- Tukey's fence multiplier (`outlierMultiplier = 1.5`). -/
def outlierMultiplier : ℚ := 3/2

/-- `findOutliers(samples)`: Tukey 1.5·IQR outliers; returns
`(rate, indices)`.  The map-to-`-1`-then-filter of the source is modelled by
`filterMap` over the enumerated list, which produces the same index list. -/
def findOutliers (samples : List ℚ) : ℚ × List ℕ :=
  let q1 := percentile samples (1/4)
  let q3 := percentile samples (3/4)
  let iqr := q3 - q1
  let lowerBound := q1 - outlierMultiplier * iqr
  let upperBound := q3 + outlierMultiplier * iqr
  let indices := samples.enum.filterMap
    (fun iv => if iv.2 < lowerBound ∨ iv.2 > upperBound then some iv.1 else none)
  ((indices.length : ℚ) / (samples.length : ℚ), indices)

/-- `createResample(samples)`: resample with replacement.  The random draws
`Math.floor(Math.random() * n)` are passed explicitly as `idxs` (JavaScript
always draws `i < n`; theorems carry that as a hypothesis). -/
def createResample (samples : List ℚ) (idxs : List ℕ) : List ℚ :=
  idxs.map (fun i => samples.getD i 0)

/-- The percentage expression `((c - b) / b) * 100` under IEEE semantics:
division by a zero baseline produces ±Infinity (or NaN when `c = b = 0`). -/
def pctDiff (c b : ℚ) : JNum :=
  if b = 0 then
    (if c - b = 0 then .nan else if c - b > 0 then .inf else .ninf)
  else .fin ((c - b) / b * 100)

/-- Sort used by `computeInterval` over the resampled percentage differences,
which can contain ±Infinity when a resample median is zero. -/
def sortJ (values : List JNum) : List JNum :=
  values.mergeSort JNum.sortLe

/-- `percentile` applied to a possibly-special-valued array (the resample
difference distribution).  Out-of-range access models `undefined` as NaN,
which propagates identically through the comparisons that consume it. -/
def percentileJ (values : List JNum) (p : ℚ) : JNum :=
  let sorted := sortJ values
  let index : ℤ := ⌈(sorted.length : ℚ) * p⌉ - 1
  sorted.getD (max 0 index).toNat .nan

/-- `computeInterval(medians, confidence)`: `[quantile α/2, quantile 1-α/2]`. -/
def computeInterval (medians : List JNum) (confidence : ℚ) : JNum × JNum :=
  let alpha := (1 - confidence) / 2
  (percentileJ medians alpha, percentileJ medians (1 - alpha))

/-- `CIDirection`. -/
inductive CIDirection where
  | faster
  | slower
  | uncertain
deriving DecidableEq, Repr

/-- `DifferenceCI` (the `histogram` field only feeds visualization and is not
modelled; no claim mentions it). -/
structure DifferenceCI where
  percent : JNum
  ci : JNum × JNum
  direction : CIDirection
deriving DecidableEq, Repr

/-- `bootstrapDifferenceCI(baseline, current, options)`.  Each bootstrap
iteration's random index draws appear as one `(baseline idxs, current idxs)`
pair of `resampleIdx`; its length plays the role of `options.resamples`. -/
def bootstrapDifferenceCI (baseline current : List ℚ)
    (resampleIdx : List (List ℕ × List ℕ)) (conf : ℚ) : DifferenceCI :=
  let baselineMedian := percentile baseline (1/2)
  let currentMedian := percentile current (1/2)
  let observedPercent := pctDiff currentMedian baselineMedian
  let diffs := resampleIdx.map (fun pr =>
    let resB := createResample baseline pr.1
    let resC := createResample current pr.2
    pctDiff (percentile resC (1/2)) (percentile resB (1/2)))
  let ci := computeInterval diffs conf
  let excludesZero := JNum.jlt (.fin 0) ci.1 || JNum.jlt ci.2 (.fin 0)
  let direction : CIDirection :=
    if excludesZero then
      (if JNum.jlt observedPercent (.fin 0) then .faster else .slower)
    else .uncertain
  { percent := observedPercent, ci := ci, direction := direction }

/-- The nearest-rank indexing rule as the specification words it: the element
of the sorted list at index `max(0, ⌈n·p⌉ - 1)`. -/
def specNearestRank (values : List ℚ) (p : ℚ) : ℚ :=
  (sortQ values).getD (max 0 (⌈(values.length : ℚ) * p⌉ - 1)).toNat 0

/-! ### Adaptive controller (`src/runners/AdaptiveWrapper.ts`) -/

/-- Modelled from the spec: `msToNs` is imported from `RunnerUtils.ts`, which
is not among the provided sources.  The spec fixes samples as milliseconds and
`checkConvergence` input as nanoseconds, with window thresholds of 10 µs /
100 µs / 1 ms / 10 ms after dividing by `msToNs`; that forces
`msToNs = 1 000 000` (nanoseconds per millisecond). -/
def msToNs : ℚ := 1000000

/-- Module constant `fallbackThreshold = 80`. -/
def fallbackThreshold : ℚ := 80

/-- Module constant `windowSize = 50` (default window). -/
def windowSize : ℕ := 50

/-- Module constant `stability = 0.05` (5% drift threshold). -/
def stability : ℚ := 1/20

/-- Module constant `continueBatch = 100` (ms budget per continuation). -/
def continueBatch : ℚ := 100

/-- Module constant `continueIterations = 10`. -/
def continueIterations : ℕ := 10

/-- `Metrics`.  `medianDrift` is a `JNum`: its computation divides by the
previous window's median, which can be zero (IEEE NaN / +Infinity).
`impactDrift` is the difference of two outlier-impact ratios, whose divisions
the source guards (`totalTime > 0`), so it is always finite. -/
structure Metrics where
  medianDrift : JNum
  impactDrift : ℚ
  medianStable : Bool
  impactStable : Bool
deriving DecidableEq, Repr

/-- `ConvergenceResult`. -/
structure ConvergenceResult where
  converged : Bool
  confidence : ℚ
  reason : String
deriving DecidableEq, Repr

/-- `getOutlierImpact(samples)`: `(ratio, count)` — time cost of samples above
`median + 1.5·(q75 - median)` as a proportion of total time. -/
def getOutlierImpact (samples : List ℚ) : ℚ × ℕ :=
  if samples.length = 0 then (0, 0)
  else
    let median := percentile samples (1/2)
    let q75 := percentile samples (3/4)
    let threshold := median + 3/2 * (q75 - median)
    let excessTime := samples.foldl
      (fun acc s => if s > threshold then acc + (s - median) else acc) 0
    let count := (samples.filter (fun s => decide (s > threshold))).length
    let totalTime := samples.foldl (· + ·) 0
    (if totalTime > 0 then excessTime / totalTime else 0, count)

/-- `getWindowSize(samples)`: window size scaled to the median of the last
20 samples (ns → ms); default 50 below 20 samples. -/
def getWindowSize (samples : List ℚ) : ℕ :=
  if samples.length < 20 then windowSize
  else
    let recentMs := (samples.drop (samples.length - 20)).map (· / msToNs)
    let recentMedian := percentile recentMs (1/2)
    if recentMedian < 1/100 then 200
    else if recentMedian < 1/10 then 100
    else if recentMedian < 1 then 50
    else if recentMedian < 10 then 30
    else 20

/-- `getStability(samples, windowSize)`: drift metrics between the last
window (`slice(-w)`) and the one before it (`slice(-2w, -w)`).
`medianDrift = |medianRecent − medianPrevious| / medianPrevious` is the IEEE
quotient: NaN (both medians zero) or +Infinity (zero previous median only)
when the previous window's median is zero — in either case the `< stability`
comparison is false and the window is **not** stable, exactly as in the
source; with a non-zero previous median the quotient is the exact rational. -/
def getStability (samples : List ℚ) (w : ℕ) : Metrics :=
  let recent := samples.drop (samples.length - w)
  let previous := (samples.drop (samples.length - 2 * w)).take w
  let recentMs := recent.map (· / msToNs)
  let previousMs := previous.map (· / msToNs)
  let medianRecent := percentile recentMs (1/2)
  let medianPrevious := percentile previousMs (1/2)
  let medianDrift :=
    JNum.jdiv (.fin |medianRecent - medianPrevious|) (.fin medianPrevious)
  let impactRecent := getOutlierImpact recentMs
  let impactPrevious := getOutlierImpact previousMs
  let impactDrift := |impactRecent.1 - impactPrevious.1|
  { medianDrift := medianDrift, impactDrift := impactDrift,
    medianStable := JNum.jlt medianDrift (.fin stability),
    impactStable := impactDrift < stability }

/-- `buildProgressResult(currentSamples, minSamples)`. -/
def buildProgressResult (currentSamples minSamples : ℕ) : ConvergenceResult :=
  { converged := false,
    confidence := ((currentSamples : ℚ) / (minSamples : ℚ)) * 100,
    reason := "Collecting samples: " ++ toString currentSamples ++ "/" ++
      toString minSamples }

/-- `buildConvergence(metrics)`.  The unconverged confidence
`Math.max(0, Math.min(100, (1 − medianDrift/stability)·50 +
(1 − impactDrift/stability)·50))` is computed with the IEEE (`JNum`)
operations, since `medianDrift` can be NaN or +Infinity: an infinite drift
clamps to 0 exactly as in the source, and the NaN case is stored through
`JNum.orZero` (see there: control-flow exact, display-only divergence).  The
drift percentages in the unconverged reasons are rendered by `toFixed(1)` in
the source; `JNum.display` prints the exact rational (or
`Infinity`/`NaN`) instead — no claim inspects those strings. -/
def buildConvergence (m : Metrics) : ConvergenceResult :=
  if m.medianStable && m.impactStable then
    { converged := true, confidence := 100,
      reason := "Stable performance pattern" }
  else
    let confidence := JNum.jmin (.fin 100)
      (JNum.jadd
        (JNum.jmul (JNum.jsub (.fin 1) (JNum.jdiv m.medianDrift (.fin stability)))
          (.fin 50))
        (.fin ((1 - m.impactDrift / stability) * 50)))
    let reason :=
      if JNum.jlt (.fin m.impactDrift) m.medianDrift then
        "Median drifting: " ++
          JNum.display (JNum.jmul m.medianDrift (.fin 100)) ++ "%"
      else
        "Outlier impact changing: " ++ toString (m.impactDrift * 100) ++ "%"
    { converged := false,
      confidence := (JNum.jmax (.fin 0) confidence).orZero,
      reason := reason }

/-- `checkConvergence(samples)` (samples in nanoseconds). -/
def checkConvergence (samples : List ℚ) : ConvergenceResult :=
  let w := getWindowSize samples
  let minSamples := w * 2
  if samples.length < minSamples then
    buildProgressResult samples.length minSamples
  else
    buildConvergence (getStability samples w)

/-- `shouldStop(convergence, targetConfidence, elapsedTime, minTime)`. -/
def shouldStop (c : ConvergenceResult)
    (targetConfidence elapsedTime minTime : ℚ) : Bool :=
  if c.converged && decide (c.confidence ≥ targetConfidence) then true
  else
    let threshold := max targetConfidence fallbackThreshold
    decide (elapsedTime ≥ minTime) && decide (c.confidence ≥ threshold)

/-- The runner options fields the adaptive loop overrides when it schedules a
continuation batch. -/
structure BatchOptions where
  maxTime : ℚ
  maxIterations : Option ℕ
  skipWarmup : Bool
deriving DecidableEq, Repr

/-- One decision of the `collectAdaptive` loop body. -/
inductive AdaptiveStep where
  | stop
  | batch (opts : BatchOptions)
deriving DecidableEq, Repr

/-- Time limits of the adaptive loop. -/
structure AdaptiveLimits where
  minTime : ℚ
  maxTime : ℚ
  targetConfidence : ℚ
deriving DecidableEq, Repr

/-- One iteration of the `while` loop in `collectAdaptive`: with the samples
collected so far (ms) and the elapsed time, either stop or run another batch
with `maxTime := continueBatch`, `maxIterations := continueIterations` and
`skipWarmup := true` (the ≤1 Hz progress logging has no effect on control
flow and is not modelled). -/
def collectAdaptiveStep (allSamples : List ℚ) (elapsed : ℚ)
    (limits : AdaptiveLimits) (base : BatchOptions) : AdaptiveStep :=
  if ¬ (elapsed < limits.maxTime) then .stop
  else
    let samplesNs := allSamples.map (· * msToNs)
    let convergence := checkConvergence samplesNs
    if shouldStop convergence limits.targetConfidence elapsed limits.minTime then
      .stop
    else
      .batch { base with maxTime := continueBatch,
                         maxIterations := some continueIterations,
                         skipWarmup := true }

/-! ### Basic collector statistics (`BasicRunner`, provided as an unnamed
source file) -/

/-- `SampleTimeStats`. -/
structure SampleTimeStats where
  min : ℚ
  max : ℚ
  avg : ℚ
  p50 : ℚ
  p75 : ℚ
  p99 : ℚ
  p999 : ℚ
deriving DecidableEq, Repr

/-- The basic collector's private `percentile(sortedArray, p)`: linear
interpolation at rank `(n - 1)·p`.  `index % 1` equals `index - ⌊index⌋` for
the non-negative indices produced by `p ∈ [0, 1]`. -/
def bPercentile (sortedArray : List ℚ) (p : ℚ) : ℚ :=
  let index : ℚ := ((sortedArray.length : ℚ) - 1) * p
  let lower : ℤ := ⌊index⌋
  let upper : ℤ := ⌈index⌉
  let weight : ℚ := index - ⌊index⌋
  if upper ≥ (sortedArray.length : ℤ) then
    sortedArray.getD (sortedArray.length - 1) 0
  else
    sortedArray.getD lower.toNat 0 * (1 - weight) +
      sortedArray.getD upper.toNat 0 * weight

/-- `computeStats(samples)` of the basic collector: sorts once, then takes
`sorted[0]`, `sorted[n-1]`, the mean, and interpolated percentiles. -/
def computeStats (samples : List ℚ) : SampleTimeStats :=
  let sorted := sortQ samples
  let avg := (samples.foldl (· + ·) 0) / (samples.length : ℚ)
  { min := sorted.getD 0 0,
    max := sorted.getD (sorted.length - 1) 0,
    avg := avg,
    p50 := bPercentile sorted (1/2),
    p75 := bPercentile sorted (3/4),
    p99 := bPercentile sorted (99/100),
    p999 := bPercentile sorted (999/1000) }

/-! ### Adaptive wrapper time statistics (`computeTimeStats`) -/

/-- `getMinMaxSum(samples)`: reductions seeded with `±Infinity` (hence the
`JNum` min/max) and `0`. -/
def getMinMaxSum (samples : List ℚ) : JNum × JNum × ℚ :=
  (samples.foldl (fun a b => JNum.jmin a (.fin b)) .inf,
   samples.foldl (fun a b => JNum.jmax a (.fin b)) .ninf,
   samples.foldl (· + ·) 0)

/-- The time-statistics record built by the adaptive wrapper;
`min`/`max` keep the `JNum` type of the Infinity-seeded reductions. -/
structure TimeStatsA where
  min : JNum
  max : JNum
  avg : ℚ
  p25 : ℚ
  p50 : ℚ
  p75 : ℚ
  p95 : ℚ
  p99 : ℚ
  p999 : ℚ
  mad : ℚ
  outlierRate : ℚ

/-- `computeTimeStats(samplesNs)` of the adaptive wrapper: min/max/avg and
nearest-rank percentiles over the nanosecond samples, each divided by
`msToNs`; robust metrics over the millisecond samples.  The `cv` field
(`coefficientOfVariation samplesMs`, real-valued via `Math.sqrt`) is not part
of the record here since it would make the whole record noncomputable; it is
handled by `coefficientOfVariation` directly where needed. -/
def computeTimeStats (samplesNs : List ℚ) : TimeStatsA :=
  let samplesMs := samplesNs.map (· / msToNs)
  let mms := getMinMaxSum samplesNs
  { min := JNum.jdiv mms.1 (.fin msToNs),
    max := JNum.jdiv mms.2.1 (.fin msToNs),
    avg := mms.2.2 / (samplesNs.length : ℚ) / msToNs,
    p25 := percentile samplesNs (1/4) / msToNs,
    p50 := percentile samplesNs (1/2) / msToNs,
    p75 := percentile samplesNs (3/4) / msToNs,
    p95 := percentile samplesNs (19/20) / msToNs,
    p99 := percentile samplesNs (99/100) / msToNs,
    p999 := percentile samplesNs (999/1000) / msToNs,
    mad := medianAbsoluteDeviation samplesMs,
    outlierRate := (getOutlierImpact samplesMs).1 }

/-! ### Matrix configuration gates (`src/BenchMatrix.ts`) -/

/-- The `BenchMatrix` fields that drive configuration validation; the inline
variants record is reduced to its presence. -/
structure BenchMatrixCfg where
  variantDir : Option String
  hasVariants : Bool
  baselineDir : Option String
  baselineVariant : Option String
deriving DecidableEq, Repr

/-- `validateBaseline(matrix)`: throws if both `baselineDir` and
`baselineVariant` are set. -/
def validateBaseline (m : BenchMatrixCfg) : Except String Unit :=
  if m.baselineDir.isSome ∧ m.baselineVariant.isSome then
    .error "BenchMatrix cannot have both 'baselineDir' and 'baselineVariant'"
  else .ok ()

/-- Which execution mode `runMatrix` dispatches to. -/
inductive MatrixMode where
  | dir
  | inline
deriving DecidableEq, Repr

/-- The configuration checks `runMatrix` performs before any benchmark work:
`validateBaseline` first, then mode dispatch, with `runMatrixInline`'s
`baselineDir` rejection (its first statement, ahead of any case loading or
running). -/
def runMatrixGate (m : BenchMatrixCfg) : Except String MatrixMode :=
  match validateBaseline m with
  | .error e => .error e
  | .ok _ =>
    if m.variantDir.isSome then .ok .dir
    else if m.hasVariants then
      if m.baselineDir.isSome then
        .error "BenchMatrix with inline 'variants' cannot use 'baselineDir'. Use 'variantDir' instead."
      else .ok .inline
    else .error "BenchMatrix requires either 'variants' or 'variantDir'"

/-! ### Sample collection gate (`collectSamples` of the basic collector) -/

/-- `collectSamples` reduced to its error structure: the leading
`!p.maxIterations && !p.maxTime` configuration check (JavaScript falsiness of
a numeric limit means `0`, which also covers an unset limit after defaulting),
then the measurement work — abstracted as the oracle `run` — then the
`EmptySamples` check.  The gate fires before `run` is consulted. -/
def collectSamples (maxIterations maxTime : ℚ) (name : String)
    (run : Unit → List ℚ) : Except String (List ℚ) :=
  if maxIterations = 0 ∧ maxTime = 0 then
    .error "At least one of maxIterations or maxTime must be set"
  else
    let samples := run ()
    if samples.length = 0 then
      .error ("No samples collected for benchmark: " ++ name)
    else .ok samples

/-! ### GC trace parsing and aggregation (`src/runners/GcStats.ts`) -/

/-- `GcEvent["type"]`. -/
inductive GcType where
  | scavenge
  | markCompact
  | minorMs
  | unknown
deriving DecidableEq, Repr

/-- `GcEvent`.  The numeric fields are `JNum` because `parseInt`/`parseFloat`
can yield NaN; `allocated`/`promoted`/`survived` are optional because browser
events omit them. -/
structure GcEvent where
  type : GcType
  pauseMs : JNum
  collected : JNum
  allocated : Option JNum
  promoted : Option JNum
  survived : Option JNum
deriving DecidableEq, Repr

/-- `GcStats`. -/
structure GcStats where
  scavenges : ℕ
  markCompacts : ℕ
  totalCollected : JNum
  gcPauseTime : JNum
  totalAllocated : Option JNum
  totalPromoted : Option JNum
  totalSurvived : Option JNum
deriving DecidableEq, Repr

/-- A regex word character (`\w` = `[A-Za-z0-9_]`). -/
def isWordChar (c : Char) : Bool := c.isAlphanum || c = '_'

/-- A value character (`[^\s,]`): anything but whitespace or a comma.  (`\s`
also covers exotic Unicode whitespace, which GC trace lines never contain.) -/
def isValueChar (c : Char) : Bool := !(c.isWhitespace || c = ',')

/-- Left-to-right scanner equivalent to
`line.matchAll(/(\w+)=([^\s,]+)/g)`: each match is a maximal word run
followed by `=` followed by a maximal non-empty run of value characters;
scanning resumes after the value (after a failed candidate, at the next
position, which skips the rest of the failed word run). -/
def scanFields (cs : List Char) : List (String × String) :=
  match cs with
  | [] => []
  | c :: rest =>
    if isWordChar c then
      let key := c :: rest.takeWhile isWordChar
      match h : rest.dropWhile isWordChar with
      | '=' :: v =>
        let val := v.takeWhile isValueChar
        if val.isEmpty then scanFields v
        else (String.mk key, String.mk val) :: scanFields (v.dropWhile isValueChar)
      | _ => scanFields (rest.dropWhile isWordChar)
    else scanFields rest
termination_by cs.length
decreasing_by
  · have h1 : (rest.dropWhile isWordChar).length ≤ rest.length :=
      (List.dropWhile_sublist _).length_le
    rw [h] at h1
    simp only [List.length_cons] at h1 ⊢
    omega
  · have h1 : (rest.dropWhile isWordChar).length ≤ rest.length :=
      (List.dropWhile_sublist _).length_le
    have h2 : (v.dropWhile isValueChar).length ≤ v.length :=
      (List.dropWhile_sublist _).length_le
    rw [h] at h1
    simp only [List.length_cons] at h1 ⊢
    omega
  · have h1 : (rest.dropWhile isWordChar).length ≤ rest.length :=
      (List.dropWhile_sublist _).length_le
    simp only [List.length_cons]
    omega
  · simp only [List.length_cons]; omega

attribute [local semireducible] scanFields

/-- `parseNvpFields(line)`. -/
def parseNvpFields (line : String) : List (String × String) :=
  scanFields line.toList

/-- Object-property lookup on the collected fields: assignment order means
the **last** occurrence of a key wins. -/
def fieldsGet (fs : List (String × String)) (k : String) : Option String :=
  (fs.reverse.find? (fun p => p.1 == k)).map (·.2)

/-- Digit run to natural number. -/
def digitsToNat (ds : List Char) : ℕ :=
  ds.foldl (fun acc d => 10 * acc + (d.toNat - '0'.toNat)) 0

/-- `Number.parseFloat`: longest valid decimal prefix after optional
whitespace and sign; `Infinity` recognised; NaN when no prefix parses. -/
def jsParseFloat (s : String) : JNum :=
  let cs := s.toList.dropWhile (fun c => c.isWhitespace)
  let signed : Bool × List Char :=
    match cs with
    | '-' :: t => (true, t)
    | '+' :: t => (false, t)
    | _ => (false, cs)
  let neg := signed.1
  let cs1 := signed.2
  if cs1.take 8 = "Infinity".toList then (if neg then .ninf else .inf)
  else
    let intPart := cs1.takeWhile Char.isDigit
    let afterInt := cs1.dropWhile Char.isDigit
    let fracSplit : List Char × List Char :=
      match afterInt with
      | '.' :: t => (t.takeWhile Char.isDigit, t.dropWhile Char.isDigit)
      | _ => ([], afterInt)
    let fracPart := fracSplit.1
    let afterFrac := fracSplit.2
    if intPart.isEmpty ∧ fracPart.isEmpty then .nan
    else
      let mantissa : ℚ :=
        (digitsToNat intPart : ℚ) +
          (digitsToNat fracPart : ℚ) / ((10 : ℚ) ^ fracPart.length)
      let exp : ℤ :=
        match afterFrac with
        | e :: t =>
          if e = 'e' ∨ e = 'E' then
            let esigned : ℤ × List Char :=
              match t with
              | '-' :: u => (-1, u)
              | '+' :: u => (1, u)
              | _ => (1, t)
            let eds := esigned.2.takeWhile Char.isDigit
            if eds.isEmpty then 0 else esigned.1 * (digitsToNat eds : ℤ)
          else 0
        | [] => 0
      let q := mantissa * (10 : ℚ) ^ exp
      .fin (if neg then -q else q)

/-- `Number.parseInt(s, 10)`: decimal digit prefix after optional whitespace
and sign; NaN when no digits. -/
def jsParseInt (s : String) : JNum :=
  let cs := s.toList.dropWhile (fun c => c.isWhitespace)
  let signed : Bool × List Char :=
    match cs with
    | '-' :: t => (true, t)
    | '+' :: t => (false, t)
    | _ => (false, cs)
  let ds := signed.2.takeWhile Char.isDigit
  if ds.isEmpty then .nan
  else .fin (if signed.1 then -(digitsToNat ds : ℚ) else (digitsToNat ds : ℚ))

/-- JavaScript `||` on numbers: keep the left operand unless it is falsy
(`0` or NaN). -/
def jsOr (a b : JNum) : JNum := if a.truthy then a else b

/-- `parseGcType(gcField)`: map V8 gc codes; everything unrecognised is
`unknown`. -/
def parseGcType (gcField : String) : GcType :=
  if gcField = "s" ∨ gcField = "scavenge" then .scavenge
  else if gcField = "mc" ∨ gcField = "ms" ∨ gcField = "mark-compact" then
    .markCompact
  else if gcField = "mmc" ∨ gcField = "minor-mc" ∨ gcField = "minor-ms" then
    .minorMs
  else .unknown

/-- `parseGcLine(line)`. -/
def parseGcLine (line : String) : Option GcEvent :=
  if ¬ ("pause=".toList <:+: line.toList) then none
  else
    let fields := parseNvpFields line
    match fieldsGet fields "gc" with
    | none => none
    | some gc =>
      let int := fun k => jsParseInt ((fieldsGet fields k).getD "0")
      let type := parseGcType gc
      let pauseMs := jsParseFloat ((fieldsGet fields "pause").getD "0")
      let allocated := int "allocated"
      let promoted := int "promoted"
      let survived := jsOr (int "new_space_survived") (int "survived")
      let startSize := int "start_object_size"
      let endSize := int "end_object_size"
      let collected :=
        if JNum.jlt endSize startSize then JNum.jsub startSize endSize
        else .fin 0
      if pauseMs.isNaN then none
      else
        some { type := type, pauseMs := pauseMs, collected := collected,
               allocated := some allocated, promoted := some promoted,
               survived := some survived }

/-- Accumulator of `aggregateGcStats`'s loop, one field per mutable local. -/
structure GcAcc where
  scavenges : ℕ
  markCompacts : ℕ
  gcPauseTime : JNum
  totalCollected : JNum
  hasNodeFields : Bool
  totalAllocated : JNum
  totalPromoted : JNum
  totalSurvived : JNum
deriving DecidableEq, Repr

/-- One iteration of the `for (const e of events)` loop. -/
def gcStep (acc : GcAcc) (e : GcEvent) : GcAcc :=
  let acc1 : GcAcc :=
    { acc with
      scavenges :=
        if e.type = .scavenge ∨ e.type = .minorMs then acc.scavenges + 1
        else acc.scavenges,
      markCompacts :=
        if ¬ (e.type = .scavenge ∨ e.type = .minorMs) ∧ e.type = .markCompact
        then acc.markCompacts + 1 else acc.markCompacts,
      gcPauseTime := JNum.jadd acc.gcPauseTime e.pauseMs,
      totalCollected := JNum.jadd acc.totalCollected e.collected }
  match e.allocated with
  | some a =>
    { acc1 with
      hasNodeFields := true,
      totalAllocated := JNum.jadd acc1.totalAllocated a,
      totalPromoted := JNum.jadd acc1.totalPromoted (e.promoted.getD (.fin 0)),
      totalSurvived := JNum.jadd acc1.totalSurvived (e.survived.getD (.fin 0)) }
  | none => acc1

/-- `aggregateGcStats(events)`; the optional trio is present iff any event
carried an `allocated` field. -/
def aggregateGcStats (events : List GcEvent) : GcStats :=
  let acc := events.foldl gcStep
    ⟨0, 0, .fin 0, .fin 0, false, .fin 0, .fin 0, .fin 0⟩
  { scavenges := acc.scavenges,
    markCompacts := acc.markCompacts,
    totalCollected := acc.totalCollected,
    gcPauseTime := acc.gcPauseTime,
    totalAllocated := if acc.hasNodeFields then some acc.totalAllocated else none,
    totalPromoted := if acc.hasNodeFields then some acc.totalPromoted else none,
    totalSurvived := if acc.hasNodeFields then some acc.totalSurvived else none }

/-- A 1000-sample nanosecond series: 980 samples at 10 ms followed by 20
samples at 10.6 ms.  Its overall relative standard deviation is below 1%,
yet the last window has drifted 6% against the one before it. -/
def c5List : List ℚ := List.replicate 980 10000000 ++ List.replicate 20 10600000

/-! ## Helper lemmas -/

theorem getD_eq_get {α : Type} {l : List α} {i : ℕ} (h : i < l.length) (d : α) :
    l.getD i d = l.get ⟨i, h⟩ := by
  simp [List.getD_eq_getElem?_getD, List.getElem?_eq_getElem h]

theorem getD_mem {α : Type} {l : List α} {i : ℕ} (h : i < l.length) (d : α) :
    l.getD i d ∈ l := by
  rw [getD_eq_get h]
  exact List.get_mem _ _ _

theorem sortQ_sorted (l : List ℚ) : (sortQ l).Sorted (· ≤ ·) := by
  have h := @List.sorted_mergeSort ℚ (fun a b : ℚ => decide (a ≤ b))
    (fun a b c h1 h2 => by
      simp only [decide_eq_true_eq] at h1 h2 ⊢; exact le_trans h1 h2)
    (fun a b => by
      simp only [Bool.or_eq_true, decide_eq_true_eq]; exact le_total a b)
    l
  exact List.Pairwise.imp (fun h => by simpa using h) h

theorem sortQ_perm (l : List ℚ) : List.Perm (sortQ l) l :=
  List.mergeSort_perm l _

theorem sortQ_length (l : List ℚ) : (sortQ l).length = l.length :=
  (sortQ_perm l).length_eq

theorem sorted_getD_mono {l : List ℚ} (hs : l.Sorted (· ≤ ·)) {i j : ℕ}
    (hij : i ≤ j) (hj : j < l.length) : l.getD i 0 ≤ l.getD j 0 := by
  have hi : i < l.length := lt_of_le_of_lt hij hj
  rw [getD_eq_get hi, getD_eq_get hj]
  exact hs.rel_get_of_le hij

theorem percentile_index_lt {values : List ℚ} (hne : values ≠ []) {p : ℚ}
    (hp1 : p ≤ 1) :
    (max 0 (⌈(values.length : ℚ) * p⌉ - 1)).toNat < values.length := by
  have hlen : 1 ≤ values.length := List.length_pos.mpr hne
  have hceil : ⌈(values.length : ℚ) * p⌉ ≤ (values.length : ℤ) := by
    rw [Int.ceil_le]
    push_cast
    calc (values.length : ℚ) * p ≤ (values.length : ℚ) * 1 := by
          apply mul_le_mul_of_nonneg_left hp1
          positivity
      _ = (values.length : ℚ) := mul_one _
  omega

theorem percentile_eq_getD {values : List ℚ} (p : ℚ) :
    percentile values p =
      (sortQ values).getD
        (max 0 (⌈(values.length : ℚ) * p⌉ - 1)).toNat 0 := by
  simp [percentile, sortQ_length]

theorem percentile_mem {values : List ℚ} (hne : values ≠ []) {p : ℚ}
    (hp1 : p ≤ 1) : percentile values p ∈ values := by
  rw [percentile_eq_getD]
  have hlt : (max 0 (⌈(values.length : ℚ) * p⌉ - 1)).toNat <
      (sortQ values).length := by
    rw [sortQ_length]; exact percentile_index_lt hne hp1
  exact (sortQ_perm values).mem_iff.mp (getD_mem hlt 0)

theorem percentile_mono {values : List ℚ} (hne : values ≠ []) {p q : ℚ}
    (hpq : p ≤ q) (hq1 : q ≤ 1) :
    percentile values p ≤ percentile values q := by
  rw [percentile_eq_getD, percentile_eq_getD]
  have hmono : (max 0 (⌈(values.length : ℚ) * p⌉ - 1)).toNat ≤
      (max 0 (⌈(values.length : ℚ) * q⌉ - 1)).toNat := by
    have : ⌈(values.length : ℚ) * p⌉ ≤ ⌈(values.length : ℚ) * q⌉ := by
      apply Int.ceil_le_ceil
      apply mul_le_mul_of_nonneg_left hpq
      positivity
    omega
  have hlt : (max 0 (⌈(values.length : ℚ) * q⌉ - 1)).toNat <
      (sortQ values).length := by
    rw [sortQ_length]; exact percentile_index_lt hne hq1
  exact sorted_getD_mono (sortQ_sorted values) hmono hlt

/-- Least element of the sorted array bounds every percentile. -/
theorem sortQ_getD_zero_le {values : List ℚ} (hne : values ≠ []) {x : ℚ}
    (hx : x ∈ values) : (sortQ values).getD 0 0 ≤ x := by
  have hx' : x ∈ sortQ values := (sortQ_perm values).mem_iff.mpr hx
  obtain ⟨i, hi, rfl⟩ := List.getElem_of_mem hx'
  have h0 : 0 < (sortQ values).length := by
    rw [sortQ_length]; exact List.length_pos.mpr hne
  calc (sortQ values).getD 0 0 ≤ (sortQ values).getD i 0 :=
        sorted_getD_mono (sortQ_sorted values) (Nat.zero_le i) hi
    _ = (sortQ values)[i] := by rw [getD_eq_get hi]; rfl

/-- Greatest element of the sorted array bounds every percentile. -/
theorem le_sortQ_getD_last {values : List ℚ} (hne : values ≠ []) {x : ℚ}
    (hx : x ∈ values) : x ≤ (sortQ values).getD ((sortQ values).length - 1) 0 := by
  have hx' : x ∈ sortQ values := (sortQ_perm values).mem_iff.mpr hx
  obtain ⟨i, hi, rfl⟩ := List.getElem_of_mem hx'
  have h0 : 0 < (sortQ values).length := by
    rw [sortQ_length]; exact List.length_pos.mpr hne
  calc (sortQ values)[i] = (sortQ values).getD i 0 := by
        rw [getD_eq_get hi]; rfl
    _ ≤ (sortQ values).getD ((sortQ values).length - 1) 0 :=
        sorted_getD_mono (sortQ_sorted values) (by omega) (by omega)

/-- A convex combination of two sorted entries lies between them. -/
theorem interp_between {s : List ℚ} (hs : s.Sorted (· ≤ ·)) {i j : ℕ}
    (hij : i ≤ j) (hj : j < s.length) {w : ℚ} (hw0 : 0 ≤ w) (hw1 : w ≤ 1) :
    s.getD i 0 ≤ s.getD i 0 * (1 - w) + s.getD j 0 * w ∧
      s.getD i 0 * (1 - w) + s.getD j 0 * w ≤ s.getD j 0 := by
  have hab : s.getD i 0 ≤ s.getD j 0 := sorted_getD_mono hs hij hj
  constructor
  · nlinarith [mul_nonneg (sub_nonneg.mpr hab) hw0]
  · nlinarith [mul_nonneg (sub_nonneg.mpr hab) (sub_nonneg.mpr hw1)]

/-- In-range unfolding of the basic collector's interpolating percentile. -/
theorem bPercentile_eq {s : List ℚ} (hne : s ≠ []) {p : ℚ} (hp0 : 0 ≤ p)
    (hp1 : p ≤ 1) :
    bPercentile s p =
      s.getD (⌊((s.length : ℚ) - 1) * p⌋).toNat 0 *
          (1 - (((s.length : ℚ) - 1) * p - ⌊((s.length : ℚ) - 1) * p⌋)) +
        s.getD (⌈((s.length : ℚ) - 1) * p⌉).toNat 0 *
          (((s.length : ℚ) - 1) * p - ⌊((s.length : ℚ) - 1) * p⌋) := by
  have hlen : 1 ≤ s.length := List.length_pos.mpr hne
  have hxn : ((s.length : ℚ) - 1) * p ≤ (s.length : ℚ) - 1 := by
    calc ((s.length : ℚ) - 1) * p ≤ ((s.length : ℚ) - 1) * 1 := by
          apply mul_le_mul_of_nonneg_left hp1
          have : (1 : ℚ) ≤ (s.length : ℚ) := by exact_mod_cast hlen
          linarith
      _ = (s.length : ℚ) - 1 := mul_one _
  have hceil : ⌈((s.length : ℚ) - 1) * p⌉ ≤ (s.length : ℤ) - 1 := by
    rw [Int.ceil_le]; push_cast; linarith
  have hguard : ¬ (⌈((s.length : ℚ) - 1) * p⌉ ≥ (s.length : ℤ)) := by omega
  simp only [bPercentile, if_neg hguard]

/-- The interpolation value at abstract rank `x` is monotone in `x`. -/
theorem interp_mono {s : List ℚ} (hs : s.Sorted (· ≤ ·)) {x y : ℚ}
    (hx0 : 0 ≤ x) (hxy : x ≤ y) (hyn : y ≤ (s.length : ℚ) - 1) :
    s.getD ⌊x⌋.toNat 0 * (1 - (x - ⌊x⌋)) + s.getD ⌈x⌉.toNat 0 * (x - ⌊x⌋) ≤
      s.getD ⌊y⌋.toNat 0 * (1 - (y - ⌊y⌋)) + s.getD ⌈y⌉.toNat 0 * (y - ⌊y⌋) := by
  have hy0 : 0 ≤ y := le_trans hx0 hxy
  have hxn : x ≤ (s.length : ℚ) - 1 := le_trans hxy hyn
  have hfx0 : 0 ≤ ⌊x⌋ := Int.le_floor.mpr (by exact_mod_cast hx0)
  have hfy0 : 0 ≤ ⌊y⌋ := Int.le_floor.mpr (by exact_mod_cast hy0)
  have hfxcx : ⌊x⌋ ≤ ⌈x⌉ := Int.floor_le_ceil x
  have hfycy : ⌊y⌋ ≤ ⌈y⌉ := Int.floor_le_ceil y
  have hcxfx : ⌈x⌉ ≤ ⌊x⌋ + 1 := Int.ceil_le_floor_add_one x
  have hcyfy : ⌈y⌉ ≤ ⌊y⌋ + 1 := Int.ceil_le_floor_add_one y
  have hfxy : ⌊x⌋ ≤ ⌊y⌋ := Int.floor_le_floor hxy
  have hcxy : ⌈x⌉ ≤ ⌈y⌉ := Int.ceil_le_ceil hxy
  have hcyn : ⌈y⌉ ≤ (s.length : ℤ) - 1 := by
    rw [Int.ceil_le]; push_cast
    have h1 : 1 ≤ s.length := by
      by_contra h
      interval_cases hs2 : s.length
      · simp only [List.length_eq_zero] at hs2
        subst hs2
        simp at hyn
        linarith
    linarith
  have hn1 : 1 ≤ s.length := by
    have := hfy0
    by_contra h
    push_neg at h
    interval_cases hs2 : s.length
    · simp only [List.length_eq_zero] at hs2
      subst hs2
      simp at hyn
      linarith
  have hcyltn : ⌈y⌉.toNat < s.length := by omega
  have hwx0 : 0 ≤ x - ⌊x⌋ := by
    have := Int.floor_le x; linarith
  have hwx1 : x - ⌊x⌋ ≤ 1 := by
    have := Int.lt_floor_add_one x; push_cast at this ⊢; linarith
  have hwy0 : 0 ≤ y - ⌊y⌋ := by
    have := Int.floor_le y; linarith
  have hwy1 : y - ⌊y⌋ ≤ 1 := by
    have := Int.lt_floor_add_one y; push_cast at this ⊢; linarith
  by_cases hcase : ⌈x⌉ ≤ ⌊y⌋
  · -- the two interpolation windows are separated; chain through the ends
    have hcxltn : ⌈x⌉.toNat < s.length := by omega
    have h1 : s.getD ⌊x⌋.toNat 0 * (1 - (x - ⌊x⌋)) +
        s.getD ⌈x⌉.toNat 0 * (x - ⌊x⌋) ≤ s.getD ⌈x⌉.toNat 0 :=
      (interp_between hs (by omega) hcxltn hwx0 hwx1).2
    have h2 : s.getD ⌈x⌉.toNat 0 ≤ s.getD ⌊y⌋.toNat 0 :=
      sorted_getD_mono hs (by omega) (by omega)
    have h3 : s.getD ⌊y⌋.toNat 0 ≤ s.getD ⌊y⌋.toNat 0 * (1 - (y - ⌊y⌋)) +
        s.getD ⌈y⌉.toNat 0 * (y - ⌊y⌋) :=
      (interp_between hs (by omega) hcyltn hwy0 hwy1).1
    linarith
  · -- both ranks interpolate between the same two entries
    push_neg at hcase
    have hfeq : ⌊x⌋ = ⌊y⌋ := by omega
    have hceq : ⌈x⌉ = ⌈y⌉ := by omega
    have hab : s.getD ⌊y⌋.toNat 0 ≤ s.getD ⌈y⌉.toNat 0 :=
      sorted_getD_mono hs (by omega) hcyltn
    rw [hfeq, hceq]
    have hw : x - ⌊y⌋ ≤ y - ⌊y⌋ := by
      have : ((⌊y⌋ : ℚ)) = ((⌊y⌋ : ℤ) : ℚ) := rfl
      linarith
    nlinarith [mul_nonneg (sub_nonneg.mpr hab) (sub_nonneg.mpr hw)]

/-- The interpolation value at rank `x` lies between the sorted extremes. -/
theorem interp_bounds {s : List ℚ} (hs : s.Sorted (· ≤ ·)) (hne : s ≠ [])
    {x : ℚ} (hx0 : 0 ≤ x) (hxn : x ≤ (s.length : ℚ) - 1) :
    s.getD 0 0 ≤
        s.getD ⌊x⌋.toNat 0 * (1 - (x - ⌊x⌋)) + s.getD ⌈x⌉.toNat 0 * (x - ⌊x⌋) ∧
      s.getD ⌊x⌋.toNat 0 * (1 - (x - ⌊x⌋)) + s.getD ⌈x⌉.toNat 0 * (x - ⌊x⌋) ≤
        s.getD (s.length - 1) 0 := by
  have hn1 : 1 ≤ s.length := List.length_pos.mpr hne
  have hfx0 : 0 ≤ ⌊x⌋ := Int.le_floor.mpr (by exact_mod_cast hx0)
  have hcx : ⌈x⌉ ≤ (s.length : ℤ) - 1 := by
    rw [Int.ceil_le]; push_cast; linarith
  have hfxcx : ⌊x⌋ ≤ ⌈x⌉ := Int.floor_le_ceil x
  have hcxltn : ⌈x⌉.toNat < s.length := by omega
  have hwx0 : 0 ≤ x - ⌊x⌋ := by have := Int.floor_le x; linarith
  have hwx1 : x - ⌊x⌋ ≤ 1 := by
    have := Int.lt_floor_add_one x; push_cast at this ⊢; linarith
  have hmid := interp_between hs (show ⌊x⌋.toNat ≤ ⌈x⌉.toNat by omega)
    hcxltn hwx0 hwx1
  have hlow : s.getD 0 0 ≤ s.getD ⌊x⌋.toNat 0 :=
    sorted_getD_mono hs (Nat.zero_le _) (by omega)
  have hhigh : s.getD ⌈x⌉.toNat 0 ≤ s.getD (s.length - 1) 0 :=
    sorted_getD_mono hs (by omega) (by omega)
  exact ⟨le_trans hlow hmid.1, le_trans hmid.2 hhigh⟩

theorem bPercentile_mono {s : List ℚ} (hs : s.Sorted (· ≤ ·)) (hne : s ≠ [])
    {p q : ℚ} (hp0 : 0 ≤ p) (hpq : p ≤ q) (hq1 : q ≤ 1) :
    bPercentile s p ≤ bPercentile s q := by
  have hn1 : 1 ≤ s.length := List.length_pos.mpr hne
  have hn1q : (1 : ℚ) ≤ (s.length : ℚ) := by exact_mod_cast hn1
  rw [bPercentile_eq hne hp0 (le_trans hpq hq1),
    bPercentile_eq hne (le_trans hp0 hpq) hq1]
  apply interp_mono hs
  · exact mul_nonneg (by linarith) hp0
  · exact mul_le_mul_of_nonneg_left hpq (by linarith)
  · calc ((s.length : ℚ) - 1) * q ≤ ((s.length : ℚ) - 1) * 1 :=
        mul_le_mul_of_nonneg_left hq1 (by linarith)
      _ = (s.length : ℚ) - 1 := mul_one _

theorem bPercentile_bounds {s : List ℚ} (hs : s.Sorted (· ≤ ·)) (hne : s ≠ [])
    {p : ℚ} (hp0 : 0 ≤ p) (hp1 : p ≤ 1) :
    s.getD 0 0 ≤ bPercentile s p ∧ bPercentile s p ≤ s.getD (s.length - 1) 0 := by
  have hn1 : 1 ≤ s.length := List.length_pos.mpr hne
  have hn1q : (1 : ℚ) ≤ (s.length : ℚ) := by exact_mod_cast hn1
  rw [bPercentile_eq hne hp0 hp1]
  apply interp_bounds hs hne
  · exact mul_nonneg (by linarith) hp0
  · calc ((s.length : ℚ) - 1) * p ≤ ((s.length : ℚ) - 1) * 1 :=
        mul_le_mul_of_nonneg_left hp1 (by linarith)
      _ = (s.length : ℚ) - 1 := mul_one _

/-! ## Claim C3 -/

/-- C3 counterexample: the claim extends the nearest-rank indexing rule to
"every percentile computation in the system, including the one the collector
uses".  The basic collector's `computeStats` interpolates instead: on samples
`[0, 10]` its `p50` is `5`, while the claimed nearest-rank formula picks the
element at index `max(0, ⌈2·0.5⌉ − 1) = 0`, i.e. `0`. -/
theorem c3_counterexample :
    (computeStats [0, 10]).p50 = 5 ∧ specNearestRank [0, 10] (1/2) = 0 ∧
      (computeStats [0, 10]).p50 ≠ specNearestRank [0, 10] (1/2) := by
  decide

/-- C3 (amended): `StatisticalUtils.percentile` does return the element of
the sorted list at index `max(0, ⌈n·p⌉ − 1)` for every `p`, and both it and
the basic collector's interpolating percentile return the sole element of a
single-element list for every `p ∈ [0, 1]`; but the collector's
`computeStats` percentile uses linear interpolation at rank `(n − 1)·p`
rather than the nearest-rank rule. -/
theorem c3_percentile_amended :
    (∀ (values : List ℚ) (p : ℚ), percentile values p = specNearestRank values p) ∧
      (∀ (x p : ℚ), p ≤ 1 → percentile [x] p = x) ∧
      (∀ (x p : ℚ), bPercentile [x] p = x) := by
  refine ⟨?_, ?_, ?_⟩
  · intro values p
    simp [percentile, specNearestRank, sortQ_length]
  · intro x p hp1
    have h1 : ⌈(1 : ℚ) * p⌉ ≤ 1 := by
      rw [Int.ceil_le]; push_cast; linarith
    rw [percentile_eq_getD]
    have : (max 0 (⌈((([x] : List ℚ).length : ℚ)) * p⌉ - 1)).toNat = 0 := by
      simp only [List.length_singleton, Int.cast_one, Nat.cast_one]
      omega
    rw [this]
    have hsort : sortQ [x] = [x] := by
      apply List.eq_of_perm_of_sorted (sortQ_perm [x]) (sortQ_sorted [x])
      simp
    rw [hsort]
    rfl
  · intro x p
    have hidx : ((([x] : List ℚ).length : ℚ) - 1) * p = 0 := by
      simp
    simp only [bPercentile, hidx]
    norm_num

/-- C3 witness: the amended theorem at `values = [3, 1]`, `p = 1/2` and the
singleton `[7]`. -/
theorem c3_percentile_amended_witness :
    percentile [3, 1] (1/2) = specNearestRank [3, 1] (1/2) ∧
      percentile [(7 : ℚ)] (1/2) = 7 ∧ bPercentile [(7 : ℚ)] (9/10) = 7 :=
  ⟨c3_percentile_amended.1 [3, 1] (1/2),
   c3_percentile_amended.2.1 7 (1/2) (by norm_num),
   c3_percentile_amended.2.2 7 (9/10)⟩

/-! ## Claim C1 -/

/-- C1 counterexample: direction is **not** determined by the side of the CI
alone.  With `baseline = current = [1, 3]`, one resample drawing `[3, 3]`
against `[1, 1]`, and `confidence = 0.95`, the whole CI is `-200/3 < 0` —
the claim demands `faster` — but the observed percent is `0`, so the source's
`observedPercent < 0 ? "faster" : "slower"` yields `slower`. -/
theorem c1_counterexample :
    JNum.jlt (bootstrapDifferenceCI [1, 3] [1, 3] [([1, 1], [0, 0])]
        (95/100)).ci.2 (.fin 0) = true ∧
      (bootstrapDifferenceCI [1, 3] [1, 3] [([1, 1], [0, 0])]
        (95/100)).direction = .slower ∧
      (bootstrapDifferenceCI [1, 3] [1, 3] [([1, 1], [0, 0])]
        (95/100)).direction ≠ .faster := by
  decide

/-- C1 (amended): `uncertain` exactly when the CI does not exclude 0
(`¬(ci.lower > 0 ∨ ci.upper < 0)` under IEEE comparisons); when the CI
excludes 0 the direction follows the sign of the **observed** percent —
`faster` iff `percent < 0`, `slower` otherwise — which agrees with the
claimed CI-side rule whenever the observed percent lies on the CI's side of
zero, but not in general. -/
theorem c1_direction_amended (baseline current : List ℚ)
    (resampleIdx : List (List ℕ × List ℕ)) (conf : ℚ) :
    ((bootstrapDifferenceCI baseline current resampleIdx conf).direction =
        .uncertain ↔
      (JNum.jlt (.fin 0)
          (bootstrapDifferenceCI baseline current resampleIdx conf).ci.1 ||
        JNum.jlt (bootstrapDifferenceCI baseline current resampleIdx conf).ci.2
          (.fin 0)) = false) ∧
    ((bootstrapDifferenceCI baseline current resampleIdx conf).direction =
        .faster ↔
      (JNum.jlt (.fin 0)
          (bootstrapDifferenceCI baseline current resampleIdx conf).ci.1 ||
        JNum.jlt (bootstrapDifferenceCI baseline current resampleIdx conf).ci.2
          (.fin 0)) = true ∧
      JNum.jlt (bootstrapDifferenceCI baseline current resampleIdx conf).percent
        (.fin 0) = true) ∧
    ((bootstrapDifferenceCI baseline current resampleIdx conf).direction =
        .slower ↔
      (JNum.jlt (.fin 0)
          (bootstrapDifferenceCI baseline current resampleIdx conf).ci.1 ||
        JNum.jlt (bootstrapDifferenceCI baseline current resampleIdx conf).ci.2
          (.fin 0)) = true ∧
      JNum.jlt (bootstrapDifferenceCI baseline current resampleIdx conf).percent
        (.fin 0) = false) := by
  dsimp only [bootstrapDifferenceCI]
  generalize computeInterval
    (resampleIdx.map fun pr =>
      pctDiff (percentile (createResample current pr.2) (1/2))
        (percentile (createResample baseline pr.1) (1/2))) conf = ci
  generalize pctDiff (percentile current (1/2)) (percentile baseline (1/2)) = obs
  cases hE : (JNum.jlt (.fin 0) ci.1 || JNum.jlt ci.2 (.fin 0)) <;>
    cases hL : JNum.jlt obs (.fin 0) <;>
      simp [hE, hL]

/-- C1 witness: a concrete run where the CI excludes 0 and the observed
percent is negative, so the amended rule yields `faster`. -/
theorem c1_direction_amended_witness :
    (bootstrapDifferenceCI [10, 10] [5, 5] [([0, 0], [0, 0])]
      (95/100)).direction = .faster :=
  (c1_direction_amended [10, 10] [5, 5] [([0, 0], [0, 0])]
    (95/100)).2.1.mpr ⟨by decide, by decide⟩

/-! ## Claim C2 -/

theorem sortJ_perm (l : List JNum) : List.Perm (sortJ l) l :=
  List.mergeSort_perm l _

theorem sortJ_length (l : List JNum) : (sortJ l).length = l.length :=
  (sortJ_perm l).length_eq

theorem percentileJ_eq_getD (values : List JNum) (p : ℚ) :
    percentileJ values p =
      (sortJ values).getD
        (max 0 (⌈(values.length : ℚ) * p⌉ - 1)).toNat .nan := by
  simp [percentileJ, sortJ_length]

theorem percentileJ_mem {values : List JNum} (hne : values ≠ []) {p : ℚ}
    (hp1 : p ≤ 1) : percentileJ values p ∈ values := by
  rw [percentileJ_eq_getD]
  have hlen : 1 ≤ values.length := List.length_pos.mpr hne
  have hceil : ⌈(values.length : ℚ) * p⌉ ≤ (values.length : ℤ) := by
    rw [Int.ceil_le]
    push_cast
    calc (values.length : ℚ) * p ≤ (values.length : ℚ) * 1 := by
          apply mul_le_mul_of_nonneg_left hp1
          positivity
      _ = (values.length : ℚ) := mul_one _
  have hlt : (max 0 (⌈(values.length : ℚ) * p⌉ - 1)).toNat <
      (sortJ values).length := by
    rw [sortJ_length]; omega
  exact (sortJ_perm values).mem_iff.mp (getD_mem hlt .nan)

/-- C2 counterexample: a zero-median baseline is **not** guarded.  With
`baseline = [0, 0]` and `current = [1]` the observed percent is
`((1 − 0) / 0) · 100 = +Infinity` (not 0), every resampled difference is
`+Infinity`, so the CI is `[+∞, +∞]`, which excludes zero, and the direction
comes out `slower` (not `uncertain`). -/
theorem c2_counterexample :
    (bootstrapDifferenceCI [0, 0] [1] [([0, 0], [0])] (95/100)).percent ≠
        .fin 0 ∧
      (bootstrapDifferenceCI [0, 0] [1] [([0, 0], [0])] (95/100)).percent =
        .inf ∧
      (bootstrapDifferenceCI [0, 0] [1] [([0, 0], [0])] (95/100)).direction ≠
        .uncertain ∧
      (bootstrapDifferenceCI [0, 0] [1] [([0, 0], [0])]
        (95/100)).direction = .slower := by
  decide

/-- C2 (amended): with an all-zero baseline and positive current samples the
comparator still returns a value (it does not throw), but the percent is
`+Infinity` — the IEEE result of dividing by the zero median — and the
direction is `slower`, not the claimed `percent = 0` / `uncertain`. -/
theorem c2_zero_baseline (baseline current : List ℚ)
    (idxs : List (List ℕ × List ℕ)) (conf : ℚ)
    (hb : baseline ≠ []) (hb0 : ∀ b ∈ baseline, b = 0)
    (hc : current ≠ []) (hcpos : ∀ c ∈ current, 0 < c)
    (hidx : idxs ≠ [])
    (hres : ∀ pr ∈ idxs, pr.1 ≠ ([] : List ℕ) ∧ pr.2 ≠ ([] : List ℕ) ∧
      ∀ i ∈ pr.2, i < current.length)
    (hconf0 : 0 ≤ conf) (hconf1 : conf ≤ 1) :
    (bootstrapDifferenceCI baseline current idxs conf).percent = .inf ∧
      (bootstrapDifferenceCI baseline current idxs conf).direction =
        .slower := by
  have half_le : (1 : ℚ)/2 ≤ 1 := by norm_num
  have hbm : percentile baseline (1/2) = 0 :=
    hb0 _ (percentile_mem hb half_le)
  have hcm : 0 < percentile current (1/2) :=
    hcpos _ (percentile_mem hc half_le)
  have hpct : ∀ c : ℚ, 0 < c → pctDiff c 0 = .inf := by
    intro c hcpos'
    simp only [pctDiff, sub_zero, if_pos rfl]
    rw [if_neg hcpos'.ne', if_pos hcpos']
    simp
  have hobs : pctDiff (percentile current (1/2))
      (percentile baseline (1/2)) = .inf := by
    rw [hbm]; exact hpct _ hcm
  have hall : ∀ d ∈ idxs.map (fun pr =>
      pctDiff (percentile (createResample current pr.2) (1/2))
        (percentile (createResample baseline pr.1) (1/2))), d = JNum.inf := by
    intro d hd
    obtain ⟨pr, hpr, rfl⟩ := List.mem_map.mp hd
    obtain ⟨h1ne, h2ne, h2lt⟩ := hres pr hpr
    have hrb : percentile (createResample baseline pr.1) (1/2) = 0 := by
      have hmem := @percentile_mem (createResample baseline pr.1)
        (by simpa [createResample, List.map_eq_nil_iff] using h1ne) (1/2) half_le
      obtain ⟨i, _, heq⟩ := List.mem_map.mp hmem
      rw [← heq]
      by_cases hlt : i < baseline.length
      · exact hb0 _ (getD_mem hlt 0)
      · push_neg at hlt
        simp [List.getD_eq_getElem?_getD, List.getElem?_eq_none hlt]
    have hrc : 0 < percentile (createResample current pr.2) (1/2) := by
      have hmem := @percentile_mem (createResample current pr.2)
        (by simpa [createResample, List.map_eq_nil_iff] using h2ne) (1/2) half_le
      obtain ⟨i, hi, heq⟩ := List.mem_map.mp hmem
      rw [← heq]
      exact hcpos _ (getD_mem (h2lt i hi) 0)
    rw [hrb]; exact hpct _ hrc
  have hdne : idxs.map (fun pr =>
      pctDiff (percentile (createResample current pr.2) (1/2))
        (percentile (createResample baseline pr.1) (1/2))) ≠ [] := by
    simpa [List.map_eq_nil_iff] using hidx
  have hci1 : (computeInterval (idxs.map (fun pr =>
      pctDiff (percentile (createResample current pr.2) (1/2))
        (percentile (createResample baseline pr.1) (1/2)))) conf).1 =
      JNum.inf := by
    apply hall
    simp only [computeInterval]
    apply percentileJ_mem hdne
    linarith
  constructor
  · dsimp only [bootstrapDifferenceCI]
    exact hobs
  · dsimp only [bootstrapDifferenceCI]
    rw [hci1, hobs]
    simp [JNum.jlt]

/-- C2 witness: the amended behaviour at `baseline = [0]`, `current = [1]`,
one resample, default confidence. -/
theorem c2_zero_baseline_witness :
    (bootstrapDifferenceCI [0] [1] [([0], [0])] (95/100)).percent = .inf ∧
      (bootstrapDifferenceCI [0] [1] [([0], [0])] (95/100)).direction =
        .slower :=
  c2_zero_baseline [0] [1] [([0], [0])] (95/100) (by decide)
    (by decide) (by decide) (by decide) (by decide)
    (by decide) (by norm_num) (by norm_num)

/-! ## Claim C4 -/

theorem jmin_fin_fin (a b : ℚ) : JNum.jmin (.fin a) (.fin b) = .fin (min a b) := by
  by_cases h : a ≤ b <;> simp [JNum.jmin, JNum.jle, h, min_def]

theorem jmax_fin_fin (a b : ℚ) : JNum.jmax (.fin a) (.fin b) = .fin (max a b) := by
  by_cases h : a ≤ b <;> simp [JNum.jmax, JNum.jle, h, max_def]

theorem foldl_jmin_fin (l : List ℚ) (m : ℚ) :
    l.foldl (fun a b => JNum.jmin a (.fin b)) (.fin m) = .fin (l.foldl min m) := by
  induction l generalizing m with
  | nil => rfl
  | cons x t ih => simp only [List.foldl_cons, jmin_fin_fin, ih]

theorem foldl_jmax_fin (l : List ℚ) (m : ℚ) :
    l.foldl (fun a b => JNum.jmax a (.fin b)) (.fin m) = .fin (l.foldl max m) := by
  induction l generalizing m with
  | nil => rfl
  | cons x t ih => simp only [List.foldl_cons, jmax_fin_fin, ih]

theorem foldl_min_le_init (l : List ℚ) (m : ℚ) : l.foldl min m ≤ m := by
  induction l generalizing m with
  | nil => exact le_refl m
  | cons x t ih =>
    simp only [List.foldl_cons]
    exact le_trans (ih (min m x)) (min_le_left m x)

theorem foldl_min_le_mem (l : List ℚ) (m : ℚ) : ∀ x ∈ l, l.foldl min m ≤ x := by
  induction l generalizing m with
  | nil => intro x hx; cases hx
  | cons y t ih =>
    intro x hx
    simp only [List.foldl_cons]
    rcases List.mem_cons.mp hx with rfl | hx
    · exact le_trans (foldl_min_le_init t (min m x)) (min_le_right m x)
    · exact ih (min m y) x hx

theorem foldl_max_init_le (l : List ℚ) (m : ℚ) : m ≤ l.foldl max m := by
  induction l generalizing m with
  | nil => exact le_refl m
  | cons x t ih =>
    simp only [List.foldl_cons]
    exact le_trans (le_max_left m x) (ih (max m x))

theorem foldl_max_mem_le (l : List ℚ) (m : ℚ) : ∀ x ∈ l, x ≤ l.foldl max m := by
  induction l generalizing m with
  | nil => intro x hx; cases hx
  | cons y t ih =>
    intro x hx
    simp only [List.foldl_cons]
    rcases List.mem_cons.mp hx with rfl | hx
    · exact le_trans (le_max_right m x) (foldl_max_init_le t (max m x))
    · exact ih (max m y) x hx

theorem foldl_jmin_inf {l : List ℚ} (h : l ≠ []) :
    ∃ m : ℚ, l.foldl (fun a b => JNum.jmin a (.fin b)) .inf = .fin m ∧
      ∀ x ∈ l, m ≤ x := by
  cases l with
  | nil => exact absurd rfl h
  | cons x t =>
    refine ⟨t.foldl min x, ?_, ?_⟩
    · simp only [List.foldl_cons]
      rw [show JNum.jmin .inf (.fin x) = .fin x from rfl, foldl_jmin_fin]
    · intro y hy
      rcases List.mem_cons.mp hy with rfl | hy
      · exact foldl_min_le_init t y
      · exact foldl_min_le_mem t x y hy

theorem foldl_jmax_ninf {l : List ℚ} (h : l ≠ []) :
    ∃ m : ℚ, l.foldl (fun a b => JNum.jmax a (.fin b)) .ninf = .fin m ∧
      ∀ x ∈ l, x ≤ m := by
  cases l with
  | nil => exact absurd rfl h
  | cons x t =>
    refine ⟨t.foldl max x, ?_, ?_⟩
    · simp only [List.foldl_cons]
      rw [show JNum.jmax .ninf (.fin x) = .fin x from rfl, foldl_jmax_fin]
    · intro y hy
      rcases List.mem_cons.mp hy with rfl | hy
      · exact foldl_max_init_le t y
      · exact foldl_max_mem_le t x y hy

/-- C4: both statistics records report monotonically non-decreasing time
percentiles over the fields each one carries: the basic collector's
`computeStats` satisfies `min ≤ p50 ≤ p75 ≤ p99 ≤ p999 ≤ max`, and the
adaptive wrapper's `computeTimeStats` satisfies
`min ≤ p25 ≤ p50 ≤ p75 ≤ p95 ≤ p99 ≤ p999 ≤ max`. -/
theorem c4_time_stats_monotonic (samples : List ℚ) (hne : samples ≠ []) :
    ((computeStats samples).min ≤ (computeStats samples).p50 ∧
      (computeStats samples).p50 ≤ (computeStats samples).p75 ∧
      (computeStats samples).p75 ≤ (computeStats samples).p99 ∧
      (computeStats samples).p99 ≤ (computeStats samples).p999 ∧
      (computeStats samples).p999 ≤ (computeStats samples).max) ∧
    (JNum.jle (computeTimeStats samples).min
        (.fin (computeTimeStats samples).p25) = true ∧
      (computeTimeStats samples).p25 ≤ (computeTimeStats samples).p50 ∧
      (computeTimeStats samples).p50 ≤ (computeTimeStats samples).p75 ∧
      (computeTimeStats samples).p75 ≤ (computeTimeStats samples).p95 ∧
      (computeTimeStats samples).p95 ≤ (computeTimeStats samples).p99 ∧
      (computeTimeStats samples).p99 ≤ (computeTimeStats samples).p999 ∧
      JNum.jle (.fin (computeTimeStats samples).p999)
        (computeTimeStats samples).max = true) := by
  have hs : (sortQ samples).Sorted (· ≤ ·) := sortQ_sorted samples
  have hsne : sortQ samples ≠ [] := by
    have : (sortQ samples).length = samples.length := sortQ_length samples
    have hpos : 0 < samples.length := List.length_pos.mpr hne
    exact List.ne_nil_of_length_pos (by omega)
  have hms : (0 : ℚ) < msToNs := by norm_num [msToNs]
  constructor
  · dsimp only [computeStats]
    refine ⟨(bPercentile_bounds hs hsne (by norm_num) (by norm_num)).1,
      bPercentile_mono hs hsne (by norm_num) (by norm_num) (by norm_num),
      bPercentile_mono hs hsne (by norm_num) (by norm_num) (by norm_num),
      bPercentile_mono hs hsne (by norm_num) (by norm_num) (by norm_num),
      (bPercentile_bounds hs hsne (by norm_num) (by norm_num)).2⟩
  · obtain ⟨m, hm, hmle⟩ := foldl_jmin_inf hne
    obtain ⟨M, hM, hMle⟩ := foldl_jmax_ninf hne
    dsimp only [computeTimeStats, getMinMaxSum]
    rw [hm, hM]
    have hdivm : JNum.jdiv (.fin m) (.fin msToNs) = .fin (m / msToNs) := by
      simp only [JNum.jdiv, if_neg hms.ne']
    have hdivM : JNum.jdiv (.fin M) (.fin msToNs) = .fin (M / msToNs) := by
      simp only [JNum.jdiv, if_neg hms.ne']
    rw [hdivm, hdivM]
    have hle_fin : ∀ a b : ℚ, a ≤ b → JNum.jle (.fin a) (.fin b) = true := by
      intro a b hab; simpa [JNum.jle] using hab
    refine ⟨?_, ?_, ?_, ?_, ?_, ?_, ?_⟩
    · apply hle_fin
      have : m ≤ percentile samples (1/4) :=
        hmle _ (percentile_mem hne (by norm_num))
      gcongr
    · have : percentile samples (1/4) ≤ percentile samples (1/2) :=
        percentile_mono hne (by norm_num) (by norm_num)
      gcongr
    · have : percentile samples (1/2) ≤ percentile samples (3/4) :=
        percentile_mono hne (by norm_num) (by norm_num)
      gcongr
    · have : percentile samples (3/4) ≤ percentile samples (19/20) :=
        percentile_mono hne (by norm_num) (by norm_num)
      gcongr
    · have : percentile samples (19/20) ≤ percentile samples (99/100) :=
        percentile_mono hne (by norm_num) (by norm_num)
      gcongr
    · have : percentile samples (99/100) ≤ percentile samples (999/1000) :=
        percentile_mono hne (by norm_num) (by norm_num)
      gcongr
    · apply hle_fin
      have : percentile samples (999/1000) ≤ M :=
        hMle _ (percentile_mem hne (by norm_num))
      gcongr

/-- C4 witness: the chains at the two-sample list `[2, 1]`. -/
theorem c4_time_stats_monotonic_witness :
    ((computeStats [2, 1]).min ≤ (computeStats [2, 1]).p50 ∧
      (computeStats [2, 1]).p50 ≤ (computeStats [2, 1]).p75 ∧
      (computeStats [2, 1]).p75 ≤ (computeStats [2, 1]).p99 ∧
      (computeStats [2, 1]).p99 ≤ (computeStats [2, 1]).p999 ∧
      (computeStats [2, 1]).p999 ≤ (computeStats [2, 1]).max) ∧
    (JNum.jle (computeTimeStats [2, 1]).min
        (.fin (computeTimeStats [2, 1]).p25) = true ∧
      (computeTimeStats [2, 1]).p25 ≤ (computeTimeStats [2, 1]).p50 ∧
      (computeTimeStats [2, 1]).p50 ≤ (computeTimeStats [2, 1]).p75 ∧
      (computeTimeStats [2, 1]).p75 ≤ (computeTimeStats [2, 1]).p95 ∧
      (computeTimeStats [2, 1]).p95 ≤ (computeTimeStats [2, 1]).p99 ∧
      (computeTimeStats [2, 1]).p99 ≤ (computeTimeStats [2, 1]).p999 ∧
      JNum.jle (.fin (computeTimeStats [2, 1]).p999)
        (computeTimeStats [2, 1]).max = true) :=
  c4_time_stats_monotonic [2, 1] (by decide)

/-! ## Claim C5 -/

theorem foldl_add_replicate (n : ℕ) (a s : ℚ) :
    (List.replicate n a).foldl (· + ·) s = s + n * a := by
  induction n generalizing s with
  | zero => simp
  | succ k ih =>
    rw [List.replicate_succ, List.foldl_cons, ih]
    push_cast
    ring

theorem foldl_addf_replicate (f : ℚ → ℚ) (n : ℕ) (a s : ℚ) :
    (List.replicate n a).foldl (fun acc x => acc + f x) s = s + n * f a := by
  induction n generalizing s with
  | zero => simp
  | succ k ih =>
    rw [List.replicate_succ, List.foldl_cons, ih]
    push_cast
    ring

theorem foldl_keep_replicate {α : Type} (g : α → ℚ → α) (a : ℚ)
    (h : ∀ s, g s a = s) : ∀ (n : ℕ) (s : α), (List.replicate n a).foldl g s = s := by
  intro n
  induction n with
  | zero => intro s; rfl
  | succ k ih =>
    intro s
    rw [List.replicate_succ, List.foldl_cons, h, ih]

theorem replicate_ne_nil {α : Type} {n : ℕ} (hn : n ≠ 0) (a : α) :
    List.replicate n a ≠ [] := by
  intro h
  exact hn (by simpa using congrArg List.length h)

theorem percentile_replicate {n : ℕ} (hn : n ≠ 0) {a p : ℚ} (hp1 : p ≤ 1) :
    percentile (List.replicate n a) p = a :=
  List.eq_of_mem_replicate (percentile_mem (replicate_ne_nil hn a) hp1)

theorem getOutlierImpact_replicate {n : ℕ} (hn : n ≠ 0) (a : ℚ) :
    (getOutlierImpact (List.replicate n a)).1 = 0 := by
  unfold getOutlierImpact
  rw [if_neg (by simp [hn])]
  dsimp only
  rw [percentile_replicate hn (by norm_num), percentile_replicate hn (by norm_num)]
  have hthr : a + 3/2 * (a - a) = a := by ring
  have hfold : (List.replicate n a).foldl
      (fun acc s => if s > a + 3/2 * (a - a) then acc + (s - a) else acc) 0 = 0 := by
    apply foldl_keep_replicate
    intro s
    rw [if_neg]
    rw [hthr]
    exact lt_irrefl a
  rw [hfold]
  simp

theorem c5List_length : c5List.length = 1000 := by
  unfold c5List
  rw [List.length_append, List.length_replicate, List.length_replicate]

theorem c5List_drop980 : c5List.drop 980 = List.replicate 20 10600000 := by
  unfold c5List
  exact List.drop_left' (by rw [List.length_replicate])

theorem c5List_window_prev :
    (c5List.drop 960).take 20 = List.replicate 20 10000000 := by
  unfold c5List
  rw [show List.replicate 980 (10000000 : ℚ) =
      List.replicate 960 10000000 ++ List.replicate 20 10000000 by
    rw [← List.replicate_add]]
  rw [List.append_assoc, List.drop_left' (by rw [List.length_replicate]),
    List.take_left' (by rw [List.length_replicate])]

theorem c5_windowSize : getWindowSize c5List = 20 := by
  unfold getWindowSize
  rw [if_neg (by rw [c5List_length]; norm_num)]
  dsimp only
  rw [c5List_length, show (1000 - 20 : ℕ) = 980 from by norm_num,
    c5List_drop980, List.map_replicate,
    percentile_replicate (by norm_num) (by norm_num)]
  norm_num [msToNs]

/-- C5 counterexample: a series can have an overall relative standard
deviation below 1% while its two most recent windows still drift by 6%, so
`checkConvergence` does **not** converge even though the claim's
premise (≥ 2·W samples, RSD < 1%) holds. -/
theorem c5_counterexample :
    getWindowSize c5List * 2 ≤ c5List.length ∧
      coefficientOfVariation c5List < 1/100 ∧
      (checkConvergence c5List).converged = false := by
  have hlen := c5List_length
  have hwin := c5_windowSize
  refine ⟨by rw [hwin, hlen]; norm_num, ?_, ?_⟩
  · -- relative standard deviation: sqrt(7.056e12 / 999) / 10012000 < 1/100
    have hsum : c5List.foldl (· + ·) 0 = 10012000000 := by
      unfold c5List
      rw [List.foldl_append, foldl_add_replicate, foldl_add_replicate]
      norm_num
    have havg : average c5List = 10012000 := by
      unfold average
      rw [hsum, hlen]
      norm_num
    have hfold : c5List.foldl
        (fun sum x => sum + (x - average c5List) ^ 2) 0 = 7056000000000 := by
      rw [havg]
      unfold c5List
      rw [List.foldl_append,
        foldl_addf_replicate (fun x => (x - 10012000) ^ 2),
        foldl_addf_replicate (fun x => (x - 10012000) ^ 2)]
      norm_num
    have hsd : standardDeviation c5List =
        Real.sqrt ((7056000000000/999 : ℚ) : ℝ) := by
      unfold standardDeviation
      rw [if_neg (by rw [hlen]; norm_num)]
      dsimp only
      rw [hfold, hlen]
      norm_num
    have hsqrt : Real.sqrt ((7056000000000/999 : ℚ) : ℝ) < 100120 := by
      rw [Real.sqrt_lt' (by norm_num)]
      push_cast
      norm_num
    unfold coefficientOfVariation
    rw [if_neg (by rw [havg]; norm_num), hsd, havg]
    rw [div_lt_iff₀ (by push_cast; norm_num)]
    push_cast
    linarith
  · -- the last window (20 × 10.6 ms) drifts 6% against the previous one
    have hmedR : percentile
        ((c5List.drop (c5List.length - 20)).map (· / msToNs)) (1/2) = 53/5 := by
      rw [hlen, show (1000 - 20 : ℕ) = 980 from by norm_num, c5List_drop980,
        List.map_replicate, percentile_replicate (by norm_num) (by norm_num)]
      norm_num [msToNs]
    have hmedP : percentile
        (((c5List.drop (c5List.length - 2 * 20)).take 20).map (· / msToNs))
        (1/2) = 10 := by
      rw [hlen, show (1000 - 2 * 20 : ℕ) = 960 from by norm_num,
        c5List_window_prev, List.map_replicate,
        percentile_replicate (by norm_num) (by norm_num)]
      norm_num [msToNs]
    have hstable : (getStability c5List 20).medianStable = false := by
      unfold getStability
      dsimp only
      rw [hmedR, hmedP,
        show |(53:ℚ)/5 - 10| = 3/5 from by
          rw [show (53:ℚ)/5 - 10 = 3/5 by norm_num]
          exact abs_of_pos (by norm_num)]
      decide
    have hconv : (checkConvergence c5List).converged = false := by
      unfold checkConvergence
      rw [hwin]
      rw [if_neg (by rw [hlen]; norm_num)]
      unfold buildConvergence
      rw [hstable]
      simp
    exact hconv

/-- C5 (amended): the convergence criterion of the code is window drift, not
overall relative standard deviation: with at least `2·W` samples the check
returns `⟨converged := true, confidence := 100, "Stable performance
pattern"⟩` **exactly when** both the median drift and the outlier-impact
drift between the last two windows pass the IEEE `< 5%` stability comparison
(a zero previous-window median makes the median drift NaN or +Infinity, which
never counts as stable); with fewer than `2·W` samples it reports
`converged = false`, confidence `(n / 2W) · 100` and reason
`"Collecting samples: n/2W"`. -/
theorem c5_convergence_amended (samples : List ℚ) :
    (getWindowSize samples * 2 ≤ samples.length →
      (checkConvergence samples = ⟨true, 100, "Stable performance pattern"⟩ ↔
        JNum.jlt (getStability samples (getWindowSize samples)).medianDrift
          (.fin stability) = true ∧
        (getStability samples (getWindowSize samples)).impactDrift <
          stability)) ∧
    (samples.length < getWindowSize samples * 2 →
      checkConvergence samples =
        ⟨false, ((samples.length : ℚ) / ((getWindowSize samples * 2 : ℕ) : ℚ)) * 100,
          "Collecting samples: " ++ toString samples.length ++ "/" ++
            toString (getWindowSize samples * 2)⟩) := by
  constructor
  · intro h1
    unfold checkConvergence
    rw [if_neg (by omega)]
    by_cases hb : ((getStability samples (getWindowSize samples)).medianStable &&
        (getStability samples (getWindowSize samples)).impactStable) = true
    · unfold buildConvergence
      rw [if_pos hb]
      rw [Bool.and_eq_true] at hb
      constructor
      · intro _
        exact ⟨hb.1, of_decide_eq_true hb.2⟩
      · intro _
        rfl
    · unfold buildConvergence
      rw [if_neg hb]
      constructor
      · intro heq
        simp at heq
      · rintro ⟨ha, hi⟩
        exfalso
        apply hb
        rw [Bool.and_eq_true]
        exact ⟨ha, decide_eq_true hi⟩
  · intro h
    unfold checkConvergence
    rw [if_pos h]
    rfl

/-- C5 witness: 40 identical 20 ms samples converge with confidence 100 (both
drifts are 0), and the converse direction recovers the drift bounds from the
converged result; three samples are under the 100-sample requirement of the
default window and report the collecting-progress result. -/
theorem c5_convergence_amended_witness :
    checkConvergence (List.replicate 40 20000000) =
        ⟨true, 100, "Stable performance pattern"⟩ ∧
      JNum.jlt (getStability (List.replicate 40 20000000)
          (getWindowSize (List.replicate 40 20000000))).medianDrift
        (.fin stability) = true ∧
      checkConvergence [1000000, 2000000, 3000000] =
        ⟨false, 3, "Collecting samples: 3/100"⟩ := by
  refine ⟨?_, ?_, ?_⟩
  · exact ((c5_convergence_amended (List.replicate 40 20000000)).1
      (by decide)).mpr ⟨by decide, by decide⟩
  · exact (((c5_convergence_amended (List.replicate 40 20000000)).1
      (by decide)).mp (by decide)).1
  · have h := (c5_convergence_amended [1000000, 2000000, 3000000]).2 (by decide)
    rw [h]
    norm_num
    decide

/-! ## Claim C6 -/

/-- C6: before `maxTime` the loop stops exactly when the convergence check
converged with confidence ≥ target, or `minTime` has elapsed and confidence
reaches `max(target, 80)`; otherwise it schedules another batch with a 100 ms
budget, a 10-iteration cap and warmup skipped. -/
theorem c6_stop_decision (c : ConvergenceResult) (target elapsed minT : ℚ)
    (samples : List ℚ) (limits : AdaptiveLimits) (base : BatchOptions)
    (helapsed : elapsed < limits.maxTime) :
    (shouldStop c target elapsed minT = true ↔
      (c.converged = true ∧ target ≤ c.confidence) ∨
        (minT ≤ elapsed ∧ max target 80 ≤ c.confidence)) ∧
    (collectAdaptiveStep samples elapsed limits base = .stop ↔
      shouldStop (checkConvergence (samples.map (· * msToNs)))
        limits.targetConfidence elapsed limits.minTime = true) ∧
    (shouldStop (checkConvergence (samples.map (· * msToNs)))
        limits.targetConfidence elapsed limits.minTime = false →
      collectAdaptiveStep samples elapsed limits base =
        .batch ⟨continueBatch, some continueIterations, true⟩) := by
  refine ⟨?_, ?_, ?_⟩
  · unfold shouldStop fallbackThreshold
    by_cases hc : c.converged <;>
      simp [hc, Bool.and_eq_true, decide_eq_true_eq, ge_iff_le]
  · unfold collectAdaptiveStep
    rw [if_neg (not_not_intro helapsed)]
    dsimp only
    by_cases hss : shouldStop (checkConvergence (samples.map (· * msToNs)))
        limits.targetConfidence elapsed limits.minTime = true
    · rw [if_pos hss]
      simp [hss]
    · rw [if_neg hss]
      simp [hss]
  · intro hss
    unfold collectAdaptiveStep
    rw [if_neg (not_not_intro helapsed)]
    dsimp only
    rw [if_neg (by rw [hss]; exact Bool.false_ne_true)]

/-- C6 witness: with no samples yet and zero elapsed time the loop schedules
a continuation batch `{maxTime := 100, maxIterations := 10, skipWarmup}`;
a converged 100%-confidence result stops against a 95 target. -/
theorem c6_stop_decision_witness :
    collectAdaptiveStep [] 0 ⟨0, 10, 95⟩ ⟨5000, none, false⟩ =
        .batch ⟨100, some 10, true⟩ ∧
      shouldStop ⟨true, 100, "Stable performance pattern"⟩ 95 0 0 = true := by
  constructor
  · exact (c6_stop_decision ⟨false, 0, ""⟩ 95 0 0 [] ⟨0, 10, 95⟩
      ⟨5000, none, false⟩ (by norm_num)).2.2 (by decide)
  · exact (c6_stop_decision ⟨true, 100, "Stable performance pattern"⟩ 95 0 0 []
      ⟨0, 10, 95⟩ ⟨5000, none, false⟩ (by norm_num)).1.mpr
      (Or.inl ⟨rfl, by norm_num⟩)

/-! ## Claim C7 -/

/-- C7 counterexample: a line whose `gc=` code is not one of the recognized
V8 codes still yields an event — of type `unknown` — rather than no event as
the claim states. -/
theorem c7_counterexample :
    (parseGcLine "pause=1.5 gc=zz").isSome = true ∧
      (parseGcLine "pause=1.5 gc=zz").map GcEvent.type = some .unknown ∧
      parseGcType "zz" = .unknown := by
  decide

/-- C7 (amended): a line yields no event exactly when it lacks the substring
`pause=`, when no `gc=` field parses, or when the pause field's value parses
to NaN; every other line yields exactly one event, whose type is whatever
`parseGcType` maps the gc code to (`unknown` for unrecognized codes, still an
event). -/
theorem c7_parse_amended (line : String) :
    (parseGcLine line = none ↔
      ¬ ("pause=".toList <:+: line.toList) ∨
        fieldsGet (parseNvpFields line) "gc" = none ∨
        (jsParseFloat ((fieldsGet (parseNvpFields line) "pause").getD
          "0")).isNaN = true) ∧
    (∀ e, parseGcLine line = some e →
      ∃ g, fieldsGet (parseNvpFields line) "gc" = some g ∧
        e.type = parseGcType g) := by
  unfold parseGcLine
  by_cases h1 : "pause=".toList <:+: line.toList
  · rw [if_neg (not_not_intro h1)]
    dsimp only
    cases hg : fieldsGet (parseNvpFields line) "gc" with
    | none => simp [h1, hg]
    | some g =>
      dsimp only
      by_cases hp : (jsParseFloat ((fieldsGet (parseNvpFields line)
          "pause").getD "0")).isNaN = true
      · rw [if_pos hp]
        simp [h1, hg, hp]
      · rw [if_neg hp]
        constructor
        · constructor
          · intro hcontra
            exact absurd hcontra (Option.some_ne_none _)
          · intro hor
            rcases hor with h | h | h
            · exact absurd h1 h
            · exact Option.noConfusion h
            · exact absurd h hp
        · intro e he
          refine ⟨g, rfl, ?_⟩
          cases he
          rfl
  · rw [if_pos h1]
    constructor
    · constructor
      · intro _
        exact Or.inl h1
      · intro _
        rfl
    · intro e he
      exact Option.noConfusion he

/-- C7 witness: a non-numeric pause yields no event; the unrecognized-code
line parses and its event type is `parseGcType` of the extracted code. -/
theorem c7_parse_amended_witness :
    parseGcLine "pause=abc gc=s" = none ∧
      ∃ g, fieldsGet (parseNvpFields "pause=1.5 gc=zz") "gc" = some g ∧
        GcType.unknown = parseGcType g := by
  constructor
  · exact (c7_parse_amended "pause=abc gc=s").1.mpr
      (Or.inr (Or.inr (by decide)))
  · obtain ⟨g, hg, ht⟩ := (c7_parse_amended "pause=1.5 gc=zz").2
      ⟨.unknown, .fin (3/2), .fin 0, some (.fin 0), some (.fin 0),
        some (.fin 0)⟩ (by decide)
    exact ⟨g, hg, ht⟩

/-! ## Claim C8 -/

theorem foldl_add_nonneg {l : List ℚ} (hl : ∀ x ∈ l, 0 ≤ x) {s : ℚ}
    (hs : 0 ≤ s) : 0 ≤ l.foldl (· + ·) s := by
  induction l generalizing s with
  | nil => exact hs
  | cons x t ih =>
    rw [List.foldl_cons]
    exact ih (fun y hy => hl y (List.mem_cons_of_mem x hy))
      (by have := hl x (List.mem_cons_self x t); linarith)

theorem standardDeviation_nonneg (samples : List ℚ) :
    0 ≤ standardDeviation samples := by
  unfold standardDeviation
  split
  · exact le_refl 0
  · exact Real.sqrt_nonneg _

/-- C8 counterexample: the claim covers "arbitrary-valued arrays", but for a
sample array with a negative mean, `coefficientOfVariation` is negative
(`stddev/mean` with `stddev = 1`, `mean = -2`). -/
theorem c8_counterexample : coefficientOfVariation [-1, -2, -3] < 0 := by
  have havg : average [-1, -2, -3] = -2 := by decide
  have hsd : standardDeviation [-1, -2, -3] = 1 := by
    unfold standardDeviation
    rw [if_neg (by decide)]
    dsimp only
    rw [show (([-1, -2, -3] : List ℚ).foldl
        (fun sum x => sum + (x - average [-1, -2, -3]) ^ 2) 0) /
        ((([-1, -2, -3] : List ℚ).length : ℚ) - 1) = 1 from by decide]
    push_cast
    exact Real.sqrt_one
  unfold coefficientOfVariation
  rw [if_neg (by rw [havg]; norm_num), hsd, havg]
  push_cast
  norm_num

/-- C8 (amended): on every **non-empty** sample array the outlier rate lies
in `[0, 1]` and the median absolute deviation is non-negative; the
coefficient of variation is non-negative provided the samples are
non-negative (a negative mean makes it negative, and the empty array
produces NaN in the source). -/
theorem c8_stat_invariants (samples : List ℚ) (hne : samples ≠ []) :
    (0 ≤ (findOutliers samples).1 ∧ (findOutliers samples).1 ≤ 1) ∧
      0 ≤ medianAbsoluteDeviation samples ∧
      ((∀ x ∈ samples, 0 ≤ x) → 0 ≤ coefficientOfVariation samples) := by
  have hlen : 0 < samples.length := List.length_pos.mpr hne
  refine ⟨⟨?_, ?_⟩, ?_, ?_⟩
  · unfold findOutliers
    dsimp only
    positivity
  · unfold findOutliers
    dsimp only
    rw [div_le_one (by exact_mod_cast hlen)]
    have h1 : (samples.enum.filterMap (fun iv =>
        if iv.2 < percentile samples (1/4) -
            outlierMultiplier * (percentile samples (3/4) - percentile samples (1/4)) ∨
          iv.2 > percentile samples (3/4) +
            outlierMultiplier * (percentile samples (3/4) - percentile samples (1/4))
        then some iv.1 else none)).length ≤ samples.enum.length :=
      List.length_filterMap_le _ _
    rw [List.enum_length] at h1
    exact_mod_cast h1
  · unfold medianAbsoluteDeviation
    dsimp only
    have hdne : samples.map (fun x => |x - percentile samples (1/2)|) ≠ [] := by
      simpa [List.map_eq_nil_iff] using hne
    have hmem := @percentile_mem _ hdne (1/2) (by norm_num)
    obtain ⟨x, _, heq⟩ := List.mem_map.mp hmem
    rw [← heq]
    exact abs_nonneg _
  · intro hpos
    unfold coefficientOfVariation
    by_cases h0 : average samples = 0
    · rw [if_pos h0]
    · rw [if_neg h0]
      have havg : 0 ≤ average samples := by
        unfold average
        apply div_nonneg (foldl_add_nonneg hpos (le_refl 0))
        exact_mod_cast Nat.zero_le _
      apply div_nonneg (standardDeviation_nonneg samples)
      exact_mod_cast havg

/-- C8 witness: the invariants at `[0, 5]`. -/
theorem c8_stat_invariants_witness :
    (0 ≤ (findOutliers [0, 5]).1 ∧ (findOutliers [0, 5]).1 ≤ 1) ∧
      0 ≤ medianAbsoluteDeviation [0, 5] ∧
      ((∀ x ∈ ([0, 5] : List ℚ), 0 ≤ x) →
        0 ≤ coefficientOfVariation [0, 5]) :=
  c8_stat_invariants [0, 5] (by decide)

/-! ## Claim C9 -/

/-- C9: every one of the three conflicting configurations is rejected with a
configuration error before any benchmark work: both baselines set; inline
variants combined with `baselineDir`; and a collector invocation whose time
and iteration limits are both unset/zero (the error is produced for **every**
possible measurement oracle `run`, i.e. without consulting it). -/
theorem c9_config_gates :
    (∀ m : BenchMatrixCfg, m.baselineDir.isSome = true →
      m.baselineVariant.isSome = true →
      runMatrixGate m = .error
        "BenchMatrix cannot have both 'baselineDir' and 'baselineVariant'") ∧
    (∀ m : BenchMatrixCfg, m.variantDir = none → m.hasVariants = true →
      m.baselineDir.isSome = true → m.baselineVariant = none →
      runMatrixGate m = .error
        "BenchMatrix with inline 'variants' cannot use 'baselineDir'. Use 'variantDir' instead.") ∧
    (∀ (name : String) (run : Unit → List ℚ),
      collectSamples 0 0 name run = .error
        "At least one of maxIterations or maxTime must be set") := by
  refine ⟨?_, ?_, ?_⟩
  · intro m h1 h2
    unfold runMatrixGate validateBaseline
    rw [if_pos ⟨h1, h2⟩]
  · intro m h1 h2 h3 h4
    unfold runMatrixGate validateBaseline
    rw [if_neg (by rw [h4]; simp)]
    dsimp only
    rw [if_neg (by rw [h1]; simp), if_pos h2, if_pos h3]
  · intro name run
    unfold collectSamples
    rw [if_pos ⟨rfl, rfl⟩]

/-- C9 witness: the gates at concrete configurations. -/
theorem c9_config_gates_witness :
    runMatrixGate ⟨none, true, some "base", some "ref"⟩ = .error
        "BenchMatrix cannot have both 'baselineDir' and 'baselineVariant'" ∧
      runMatrixGate ⟨none, true, some "base", none⟩ = .error
        "BenchMatrix with inline 'variants' cannot use 'baselineDir'. Use 'variantDir' instead." ∧
      collectSamples 0 0 "bench" (fun _ => [1]) = .error
        "At least one of maxIterations or maxTime must be set" :=
  ⟨c9_config_gates.1 ⟨none, true, some "base", some "ref"⟩ rfl rfl,
   c9_config_gates.2.1 ⟨none, true, some "base", none⟩ rfl rfl rfl rfl,
   c9_config_gates.2.2 "bench" (fun _ => [1])⟩

/-! ## Claim C10 -/

theorem gcStep_scavenges (acc : GcAcc) (e : GcEvent) :
    (gcStep acc e).scavenges =
      if e.type = .scavenge ∨ e.type = .minorMs then acc.scavenges + 1
      else acc.scavenges := by
  obtain ⟨ty, p, c, al, pr, su⟩ := e
  cases al <;> rfl

theorem gcStep_markCompacts (acc : GcAcc) (e : GcEvent) :
    (gcStep acc e).markCompacts =
      if e.type = .markCompact then acc.markCompacts + 1
      else acc.markCompacts := by
  obtain ⟨ty, p, c, al, pr, su⟩ := e
  cases ty <;> cases al <;> simp [gcStep]

theorem gcStep_gcPauseTime (acc : GcAcc) (e : GcEvent) :
    (gcStep acc e).gcPauseTime = JNum.jadd acc.gcPauseTime e.pauseMs := by
  obtain ⟨ty, p, c, al, pr, su⟩ := e
  cases al <;> rfl

theorem gcStep_totalCollected (acc : GcAcc) (e : GcEvent) :
    (gcStep acc e).totalCollected = JNum.jadd acc.totalCollected e.collected := by
  obtain ⟨ty, p, c, al, pr, su⟩ := e
  cases al <;> rfl

theorem gcStep_hasNodeFields (acc : GcAcc) (e : GcEvent) :
    (gcStep acc e).hasNodeFields = (acc.hasNodeFields || e.allocated.isSome) := by
  obtain ⟨ty, p, c, al, pr, su⟩ := e
  cases al <;> simp [gcStep]

theorem gcFold_spec (events : List GcEvent) (acc : GcAcc) :
    (events.foldl gcStep acc).scavenges =
        acc.scavenges + (events.filter (fun e =>
          decide (e.type = .scavenge ∨ e.type = .minorMs))).length ∧
      (events.foldl gcStep acc).markCompacts =
        acc.markCompacts + (events.filter (fun e =>
          decide (e.type = .markCompact))).length ∧
      (events.foldl gcStep acc).gcPauseTime =
        events.foldl (fun a e => JNum.jadd a e.pauseMs) acc.gcPauseTime ∧
      (events.foldl gcStep acc).totalCollected =
        events.foldl (fun a e => JNum.jadd a e.collected) acc.totalCollected ∧
      (events.foldl gcStep acc).hasNodeFields =
        (acc.hasNodeFields || events.any (fun e => e.allocated.isSome)) := by
  induction events generalizing acc with
  | nil => simp
  | cons e t ih =>
    obtain ⟨h1, h2, h3, h4, h5⟩ := ih (gcStep acc e)
    simp only [List.foldl_cons, List.filter_cons, List.any_cons]
    refine ⟨?_, ?_, ?_, ?_, ?_⟩
    · rw [h1, gcStep_scavenges]
      by_cases hc : e.type = .scavenge ∨ e.type = .minorMs <;>
        simp [hc] <;> omega
    · rw [h2, gcStep_markCompacts]
      by_cases hc : e.type = .markCompact <;> simp [hc] <;> omega
    · rw [h3, gcStep_gcPauseTime]
    · rw [h4, gcStep_totalCollected]
    · rw [h5, gcStep_hasNodeFields, Bool.or_assoc]

/-- C10: `aggregateGcStats` counts `scavenge` and `minor-ms` events in
`scavenges` and `mark-compact` events in `markCompacts` (so `unknown` events
increment neither), sums every event's `pauseMs` into `gcPauseTime` and
`collected` into `totalCollected`, and carries the optional allocation totals
exactly when some event has a non-null `allocated` field. -/
theorem c10_aggregate_gc (events : List GcEvent) :
    (aggregateGcStats events).scavenges = (events.filter (fun e =>
        decide (e.type = .scavenge ∨ e.type = .minorMs))).length ∧
      (aggregateGcStats events).markCompacts =
        (events.filter (fun e => decide (e.type = .markCompact))).length ∧
      (aggregateGcStats events).gcPauseTime =
        events.foldl (fun a e => JNum.jadd a e.pauseMs) (.fin 0) ∧
      (aggregateGcStats events).totalCollected =
        events.foldl (fun a e => JNum.jadd a e.collected) (.fin 0) ∧
      ((aggregateGcStats events).totalAllocated.isSome = true ↔
        ∃ e ∈ events, e.allocated.isSome = true) ∧
      ((aggregateGcStats events).totalPromoted.isSome = true ↔
        ∃ e ∈ events, e.allocated.isSome = true) ∧
      ((aggregateGcStats events).totalSurvived.isSome = true ↔
        ∃ e ∈ events, e.allocated.isSome = true) := by
  obtain ⟨h1, h2, h3, h4, h5⟩ :=
    gcFold_spec events ⟨0, 0, .fin 0, .fin 0, false, .fin 0, .fin 0, .fin 0⟩
  unfold aggregateGcStats
  dsimp only
  rw [h1, h2, h5]
  refine ⟨by simp, by simp, h3, h4, ?_, ?_, ?_⟩ <;>
    (constructor
     · intro h
       by_cases hany : events.any (fun e => e.allocated.isSome) = true
       · obtain ⟨e, he, hp⟩ := List.any_eq_true.mp hany
         exact ⟨e, he, hp⟩
       · simp [hany] at h
     · intro ⟨e, he, hp⟩
       have hany : events.any (fun e => e.allocated.isSome) = true :=
         List.any_eq_true.mpr ⟨e, he, hp⟩
       simp [hany])

/-- C10 witness: aggregation over a three-event list with one event of each
counted kind and an `unknown` event lacking `allocated`. -/
theorem c10_aggregate_gc_witness :
    (aggregateGcStats [⟨.scavenge, .fin 1, .fin 2, some (.fin 3), none, none⟩,
        ⟨.markCompact, .fin 4, .fin 5, none, none, none⟩,
        ⟨.unknown, .fin 6, .fin 7, none, none, none⟩]).scavenges =
      ([⟨.scavenge, .fin 1, .fin 2, some (.fin 3), none, none⟩,
        ⟨.markCompact, .fin 4, .fin 5, none, none, none⟩,
        (⟨.unknown, .fin 6, .fin 7, none, none, none⟩ : GcEvent)].filter
          (fun e => decide (e.type = .scavenge ∨ e.type = .minorMs))).length :=
  (c10_aggregate_gc _).1

end Benchforge
